import Mathlib

/-!
Verification of the agent-loop subsystem of the Enterprise-RAG-Challenge-3
repository (ERC3 agent framework).  Python sources are shallowly embedded as
Lean definitions: pure helpers become pure functions, stateful code threads an
explicit `RunState`, external collaborators (LLM provider, backend SDK) become
oracle functions supplied in an environment record, and fallible code returns
`Except`.  Wall-clock durations (Python floats) are modelled as rationals;
`round(t, 2)` is modelled by nearest-integer rounding at two decimals.

Embedded sources:
  * src/infrastructure.py      — trace helpers, LLM gateway, batch dispatch,
                                 conversation utilities
  * src/benchmarks/erc3/runtime/loop.py — run_step_validator,
                                 validate_and_retry_step, run_agent_loop
  * src/agent_execution.py     — run_bullshit_caller
-/

namespace Erc3

/-! ### Trace helpers (src/infrastructure.py, lines 93-132) -/

/-- Number of `'.'` characters in a string; models Python `node_id.count(".")`
(for a single-character needle, Python counts character occurrences). -/
def dotCount (s : String) : Nat := s.data.count '.'

/-- Embeds `next_node_id` (src/infrastructure.py:93).  Generates the hierarchical node
id for the trace tree:  `None ↦ "0"`, `"0" ↦ str(sibling_count+1)`, otherwise
`parent_id + "." + str(sibling_count+1)`. -/
def next_node_id (parent_id : Option String) (sibling_count : Nat) : String :=
  match parent_id with
  | none => "0"
  | some p =>
      if p = "0" then toString (sibling_count + 1)
      else p ++ "." ++ toString (sibling_count + 1)

/-- Embeds `calculate_depth` (src/infrastructure.py:120): `-1` for the sentinel
`"0"`, otherwise the dot-count of the id. -/
def calculate_depth (node_id : String) : Int :=
  if node_id = "0" then -1 else (dotCount node_id : Int)

/-! ### Conversations and `inject_plan` (src/infrastructure.py, lines 746-767) -/

/-- A role-tagged conversation message (Python `{"role": ..., "content": ...}`). -/
structure Message where
  role : String
  content : String
deriving DecidableEq, Repr

/-- Python `s.startswith(pre)`, modelled at the character-list level. -/
def pyStartsWith (s pre : String) : Bool := pre.data.isPrefixOf s.data

/-- Python `s.upper()`, modelled at the character-list level (ASCII-faithful). -/
def pyUpper (s : String) : String := ⟨s.data.map Char.toUpper⟩

/-- A message recognizable as a remaining-work plan: its content starts with
the `"Remaining work:"` prefix used by `inject_plan`. -/
def isPlanMessage (m : Message) : Bool := pyStartsWith m.content "Remaining work:"

/-- The numbered plan body: `"\n".join(f"{idx+1}. {step}" ...)`. -/
def planText (remaining_work : List String) : String :=
  String.intercalate "\n"
    (remaining_work.enum.map (fun p => toString (p.1 + 1) ++ ". " ++ p.2))

/-- Embeds `inject_plan` (src/infrastructure.py:746).  Removes every existing plan
message, then appends a fresh one when `remaining_work` is truthy (Python:
`None` and `[]` are both falsy).  The Python function mutates `conversation`
in place via `conversation[:] = ...` and returns the same list; here the
update is modelled functionally. -/
def inject_plan (conversation : List Message) (remaining_work : Option (List String)) :
    List Message :=
  let conversation := conversation.filter (fun m => !isPlanMessage m)
  match remaining_work with
  | none => conversation
  | some ws =>
      if ws.isEmpty then conversation
      else conversation ++
        [{ role := "user", content := "Remaining work:\n" ++ planText ws }]

/-- Number of plan messages in a conversation. -/
def planCount (conversation : List Message) : Nat :=
  conversation.countP (fun m => isPlanMessage m)

/-! ### LLM call gateway (src/infrastructure.py, lines 257-331)

`get_next_step` issues the structured-output LLM request inside
`for attempt in range(4)`, returning on the first success; on an exception it
sleeps `0.5` seconds and continues while `attempt < 3`, and re-raises the
exception on the final attempt.  The whole `try` body of attempt `i` (request
plus JSON parse) is modelled by the oracle `call i`. -/

/-- Outcome of one `get_next_step` run: the returned-or-raised result, the
number of attempts issued, and the backoff sleeps performed. -/
structure GatewayRun (ε ρ : Type) where
  result : Except ε ρ
  attemptsMade : Nat
  backoffs : List ℚ

/-- The fixed backoff between gateway attempts: `time.sleep(0.5)`. -/
def backoffSeconds : ℚ := 1 / 2

/-- The gateway retry loop.  `fuel` counts the retries still allowed, so the
Python guard `attempt < 3` is `fuel > 0`; callers start with `fuel = 3`,
`attempt = 0`, maintaining `fuel = 3 - attempt`. -/
def gatewayGo (call : Nat → Except ε ρ) : Nat → Nat → List ℚ → GatewayRun ε ρ
  | fuel, attempt, acc =>
    match call attempt with
    | .ok r => ⟨.ok r, attempt + 1, acc⟩
    | .error e =>
        match fuel with
        | 0 => ⟨.error e, attempt + 1, acc⟩
        | f + 1 => gatewayGo call f (attempt + 1) (acc ++ [backoffSeconds])

/-- Embeds `get_next_step` (src/infrastructure.py:257): the single place issuing LLM
requests, with bounded retry. -/
def get_next_step (call : Nat → Except ε ρ) : GatewayRun ε ρ :=
  gatewayGo call 3 0 []

/-! ### Batch SDK execution (src/infrastructure.py, lines 627-680)

`execute_batch` dispatches the listed functions serially.  `dispatch f`
models `dispatch_with_timeout(benchmark_client, f)`: a successful SDK
response (rendered both as `model_dump_json` text and `model_dump` data), a
`TimeoutError`, or an `ApiException`.  `appendBasket f txt` models
`append_basket_state_if_needed` (src/infrastructure.py:361), which only
post-processes the response text (its internal read-back dispatches a
basket-view request, never one of the batch's functions). -/

/-- Outcome of `dispatch_with_timeout` for one function. -/
inductive DispatchResult where
  | ok (respJson : String) (respDump : String)
  | timeout (msg : String)
  | apiError (detail : String)
deriving DecidableEq, Repr

/-- The `response` half of a recorded tool call: SDK response data or an
`{"error": ...}` payload. -/
inductive BatchResponse where
  | ok (respDump : String)
  | err (msg : String)
deriving DecidableEq, Repr

/-- One `{request, response}` record for the trace. -/
structure ToolCallRec where
  request : String
  response : BatchResponse
deriving DecidableEq, Repr

/-- Environment for `execute_batch` over an abstract SDK-request type `α`. -/
structure BatchEnv (α : Type) where
  dispatch : α → DispatchResult
  dumpJson : α → String
  dump : α → String
  appendBasket : α → String → String

/-- Result of `execute_batch`: the joined conversation text, the structured
trace records, and (instrumentation) the functions passed to
`dispatch_with_timeout`, in order. -/
structure BatchResult (α : Type) where
  text_parts : List String
  tool_calls : List ToolCallRec
  dispatched : List α
deriving DecidableEq, Repr

/-- The abort notice appended when a batch stops early
(`idx` 1-based position of the failed function, `total` batch size). -/
def abortNotice (idx total : Nat) : String :=
  "\nThe rest of requests are aborted due to the error.\nExecuted: " ++
    toString idx ++ " out of " ++ toString total ++ " requested operations."

/-- One request/response paragraph of the batch rendering. -/
def batchParagraph (requestJson responseTxt : String) : String :=
  "Request:\n`" ++ requestJson ++ "`\n\nResponse:\n`" ++ responseTxt ++ "`"

/-- The loop body of `execute_batch` (src/infrastructure.py:645-675):
`for idx, function in enumerate(functions_list, 1)` with fail-fast `break`
on the first `TimeoutError` or `ApiException`. -/
def execute_batch_go (env : BatchEnv α) (total : Nat) :
    List α → Nat → BatchResult α
  | [], _ => ⟨[], [], []⟩
  | f :: rest, idx =>
    let request_json := env.dumpJson f
    let request_dict := env.dump f
    match env.dispatch f with
    | .ok respJson respDump =>
        let response_with_basket := env.appendBasket f respJson
        let r := execute_batch_go env total rest (idx + 1)
        ⟨batchParagraph request_json response_with_basket :: r.text_parts,
         ⟨request_dict, .ok respDump⟩ :: r.tool_calls,
         f :: r.dispatched⟩
    | .timeout msg =>
        let error_json := "\x7b\"error\": \"" ++ msg ++ "\"\x7d"
        ⟨batchParagraph request_json error_json ::
           (if idx < total then [abortNotice idx total] else []),
         [⟨request_dict, .err msg⟩],
         [f]⟩
    | .apiError detail =>
        ⟨batchParagraph request_json detail ::
           (if idx < total then [abortNotice idx total] else []),
         [⟨request_dict, .err detail⟩],
         [f]⟩

/-- Embeds `execute_batch` (src/infrastructure.py:627): serial fail-fast execution of
a batch; the conversation text is the paragraphs joined by `"\n\n---\n\n"`. -/
def execute_batch (env : BatchEnv α) (functions_list : List α) : BatchResult α :=
  execute_batch_go env functions_list.length functions_list 1

/-- The joined conversation text returned by `execute_batch`. -/
def batchText (r : BatchResult α) : String :=
  String.intercalate "\n\n---\n\n" r.text_parts

/-! ### ERC3 runtime loop (src/benchmarks/erc3/runtime/loop.py)

The loop's external collaborators are modelled as oracles carried in a
`LoopEnv`.  `call_llm` (imported by loop.py from a revision of
infrastructure.py that is not under src/; per spec §4.1 it returns a parsed
result dict or raises) becomes the `agentLLM` and `validatorLLM` streams,
indexed by how many calls were made so far on the corresponding schema and
receiving the conversation actually passed.  `execute_erc3_tools`
(src/benchmarks/erc3/runtime/tools.py:160, which renders backend errors into
response text and returns normally) becomes the `tools` stream.  Runtime SDK
objects are modelled by `Func`, with the `getattr(..., default)` fallbacks of
`run_agent_loop` folded into total fields. -/

/-- A runtime SDK request object as the loop observes it: class name
(for `isinstance` dispatch), whether it is a terminal `/respond` action
(`is_terminal_action`, src/benchmarks/erc3/runtime/config.py), and the
`outcome`/`message`/`links` data read on terminal return (`getattr` defaults
`"error_internal"`, `""`, `[]`). -/
structure Func where
  cls : String
  terminal : Bool
  outcome : String
  message : String
  links : List String
deriving DecidableEq, Repr

/-- A parsed `AgentStep`: the loop reads `function`, `remaining_work` and
`next_action` (via `getattr`, absent modelled as `none`). -/
structure Job where
  function : Option Func
  remaining_work : Option (List String)
  next_action : String
deriving DecidableEq, Repr

/-- A parsed step-validator (or bullshit-caller) response. -/
structure ValidatorParsed where
  is_valid : Bool
  rejection_message : String
  analysis : String
deriving DecidableEq, Repr

/-- The dict returned by `call_llm` for an agent-schema call: the parsed
object, its `model_dump()` image (the same plain data), optional reasoning
text, and the call duration. -/
structure LLMResult where
  parsed : Job
  output : Job
  reasoning : Option String
  timing : ℚ
deriving DecidableEq, Repr

/-- The dict returned by `call_llm` for a validator-schema call. -/
structure ValidatorLLMResult where
  parsed : ValidatorParsed
  reasoning : Option String
  timing : ℚ
deriving DecidableEq, Repr

/-- Outcome of one validator LLM invocation: success, or an exception
together with the wall-clock time elapsed before it was raised. -/
inductive ValidatorCallOutcome where
  | ok (r : ValidatorLLMResult)
  | error (exc : String) (elapsed : ℚ)
deriving DecidableEq, Repr

/-- The `output` payload stored in a trace event: an agent step dump, a
validator dump, a bullshit-caller dump (tagged with the terminal action
type), or a caught error rendered as `{"error": str(exc)}`. -/
inductive EventOutput where
  | agent (j : Job)
  | validator (v : ValidatorParsed)
  | bullshit (terminal_action : String) (v : ValidatorParsed)
  | error (e : String)
deriving DecidableEq, Repr

/-- Python `round(t, 2)` on durations, modelled as nearest-integer rounding
at two decimals on rationals (floats are not modelled bit-exactly; no claim
depends on duration values). -/
def round2 (t : ℚ) : ℚ := ((round (t * 100) : ℤ) : ℚ) / 100

/-- A trace event.  Python builds dicts whose key set differs per event kind
(`create_trace_event` / `create_validator_event`, src/infrastructure.py:135
and 198); keys absent from a kind are modelled as `none`. -/
structure TraceEvent where
  event : String
  node_id : String
  parent_node_id : Option String
  prev_sibling_node_id : Option String
  depth : Int
  context : Option String
  validates_node_id : Option String
  validator_name : Option String
  validation_passed : Option Bool
  system_prompt : String
  input_messages : List Message
  output : EventOutput
  reasoning : Option String
  timing : ℚ
  tool_calls : Option (List String)
deriving DecidableEq, Repr

/-- Embeds `create_trace_event` (src/infrastructure.py:135).  The `tool_calls` key
is only set when the argument is truthy (non-`None` and nonempty). -/
def create_trace_event (node_id : String) (parent_node_id : Option String)
    (sibling_index : Nat) (context : String) (system_prompt : String)
    (input_messages : List Message) (output : EventOutput)
    (reasoning : Option String) (timing : ℚ) (event_type : String)
    (tool_calls : Option (List String)) : TraceEvent :=
  let prev_sibling : Option String :=
    if 0 < sibling_index then
      match parent_node_id with
      | some p => some (next_node_id (some p) (sibling_index - 1))
      | none => none
    else none
  { event := event_type
    node_id := node_id
    parent_node_id := parent_node_id
    prev_sibling_node_id := prev_sibling
    depth := calculate_depth node_id
    context := some context
    validates_node_id := none
    validator_name := none
    validation_passed := none
    system_prompt := system_prompt
    input_messages := input_messages
    output := output
    reasoning := reasoning
    timing := round2 timing
    tool_calls :=
      match tool_calls with
      | some l => if l.isEmpty then none else some l
      | none => none }

/-- Embeds `create_validator_event` (src/infrastructure.py:198). -/
def create_validator_event (node_id : String) (parent_node_id : Option String)
    (sibling_index : Nat) (validates_node_id : String) (validator_name : String)
    (validation_passed : Bool) (system_prompt : String)
    (input_messages : List Message) (output : EventOutput)
    (reasoning : Option String) (timing : ℚ) : TraceEvent :=
  let prev_sibling : Option String :=
    if 0 < sibling_index then
      match parent_node_id with
      | some p => some (next_node_id (some p) (sibling_index - 1))
      | none => none
    else none
  { event := "validator_step"
    node_id := node_id
    parent_node_id := parent_node_id
    prev_sibling_node_id := prev_sibling
    depth := calculate_depth node_id
    context := none
    validates_node_id := some validates_node_id
    validator_name := some validator_name
    validation_passed := some validation_passed
    system_prompt := system_prompt
    input_messages := input_messages
    output := output
    reasoning := reasoning
    timing := round2 timing
    tool_calls := none }

/-- Field `applies_to_agents`: the wildcard `"*"` or a tuple of agent names. -/
inductive AppliesTo where
  | wildcard
  | agents (names : List String)

/-- One `VALIDATOR_REGISTRY` entry (src/benchmarks/erc3/runtime/config.py).
`triggers_on_tools` models `isinstance(function, triggers)` on the runtime
object; `max_attempts` is read with `.get("max_attempts", 1)`. -/
structure ValidatorConfig where
  name : String
  system_prompt : String
  triggers_on_tools : Func → Bool
  applies_to_agents : AppliesTo
  max_attempts : Option Nat

/-- Python `applies_to == "*" or agent_name in applies_to`. -/
def appliesToMatches (a : AppliesTo) (agent_name : String) : Bool :=
  match a with
  | .wildcard => true
  | .agents names => names.contains agent_name

/-- The first matching validator in registration order
(validate_and_retry_step, src/benchmarks/erc3/runtime/loop.py:172-182). -/
def find_validator (registry : List ValidatorConfig) (agent_name : String)
    (function_to_execute : Func) : Option ValidatorConfig :=
  registry.find? (fun vc =>
    vc.triggers_on_tools function_to_execute &&
      appliesToMatches vc.applies_to_agents agent_name)

/-- The AgentConfig fields read by the ERC3 loop. -/
structure AgentConfig where
  name : String
  system_prompt : String
  max_steps : Nat

/-- The result of `execute_erc3_tools`: response text and tool-call records
(the `function` key returns the job's own function object and is read from
the job here). -/
structure SdkResult where
  text : String
  tool_calls : List String
deriving DecidableEq, Repr

/-- Oracle environment for one ERC3 task execution. -/
structure LoopEnv where
  agentLLM : Nat → List Message → Except String LLMResult
  validatorLLM : Nat → List Message → ValidatorCallOutcome
  tools : Nat → Job → SdkResult
  dumpFunc : Func → String
  dumpJob : Job → String

/-- State threaded through the loop: the trace sink plus instrumentation
counters for the oracle streams and for the iterations of
`run_agent_loop`'s `for` loop. -/
structure RunState where
  trace : List TraceEvent
  agentCalls : Nat
  validatorCalls : Nat
  toolExecs : Nat
  iterations : Nat
deriving DecidableEq, Repr

/-- The `"#" * 15` separator of the validator user message. -/
def validatorSeparator : String := "###############"

/-- The user message assembled by `run_step_validator` (loop.py:51-74). -/
def validatorUserMessage (env : LoopEnv) (agent_system_prompt : String)
    (conversation : List Message) (agent_output : Job) : String :=
  let conversation_turns :=
    conversation.map (fun msg => pyUpper msg.role ++ ":\n" ++ msg.content)
  let conversation_section :=
    String.intercalate ("\n\n" ++ validatorSeparator ++ "\n\n") conversation_turns
  "AGENT SYSTEM PROMPT:\n" ++ agent_system_prompt ++ "\n\n" ++ validatorSeparator ++
    "\n\n" ++ conversation_section ++ "\n\n" ++ validatorSeparator ++
    "\n\nPROPOSED NEXT STEP:\n" ++ env.dumpJob agent_output

/-- The dict returned by a validator run: approved flag, rejection message,
analysis text. -/
structure ValidationVerdict where
  is_valid : Bool
  rejection_message : String
  analysis : String
deriving DecidableEq, Repr

/-- Embeds `run_step_validator` (loop.py:32-141): runs one validator LLM call,
always appends exactly one validator event to the trace, and fails open
(approves with empty rejection message) when the call raises. -/
def run_step_validator (env : LoopEnv) (validator_config : ValidatorConfig)
    (_original_task : String) (agent_system_prompt : String)
    (conversation : List Message) (agent_output : Job)
    (validates_node_id parent_node_id : String) (sibling_count : Nat)
    (st : RunState) : ValidationVerdict × RunState :=
  let node_id := next_node_id (some parent_node_id) sibling_count
  let user_message :=
    validatorUserMessage env agent_system_prompt conversation agent_output
  match env.validatorLLM st.validatorCalls [⟨"user", user_message⟩] with
  | .ok r =>
      let ev := create_validator_event node_id (some parent_node_id) sibling_count
        validates_node_id validator_config.name r.parsed.is_valid
        validator_config.system_prompt [⟨"user", user_message⟩]
        (.validator r.parsed) r.reasoning r.timing
      (⟨r.parsed.is_valid, r.parsed.rejection_message, r.parsed.analysis⟩,
       { st with trace := st.trace ++ [ev], validatorCalls := st.validatorCalls + 1 })
  | .error exc elapsed =>
      let ev := create_validator_event node_id (some parent_node_id) sibling_count
        validates_node_id validator_config.name true
        validator_config.system_prompt [⟨"user", user_message⟩]
        (.error exc) none elapsed
      (⟨true, "", "Validation error: " ++ exc⟩,
       { st with trace := st.trace ++ [ev], validatorCalls := st.validatorCalls + 1 })

/-- Result dict of `validate_and_retry_step`. -/
structure VRSOut where
  llm_result : LLMResult
  step_count : Nat
  node_id : String
deriving DecidableEq, Repr

/-- The `for attempt in range(max_attempts + 1)` body of
`validate_and_retry_step` (loop.py:196-263), structural on the remaining
attempt indices.  `recurse` is the bounded re-dispatch of the whole
validation when the proposed tool left this validator's scope; `prevNode`
carries the Python `node_id` loop variable for the post-loop return.
Exceptions raised by the retry `call_llm` propagate as `.error`. -/
def vrsLoop (env : LoopEnv) (agent_config : AgentConfig)
    (system_prompt : String) (conversation : List Message) (original_task : String)
    (vc : ValidatorConfig) (max_attempts : Nat) (parent_node_id : String)
    (current_recursion_depth : Nat)
    (recurse : LLMResult → Nat → RunState → Except String VRSOut × RunState) :
    List Nat → LLMResult → Nat → Option String → RunState →
      Except String VRSOut × RunState
  | [], current, csc, prevNode, st =>
      (.ok ⟨current, csc, prevNode.getD "0"⟩, st)
  | attempt :: rest, current, csc, _prevNode, st =>
      let job := current.parsed
      let tool_matches :=
        match job.function with
        | some f => vc.triggers_on_tools f
        | none => false
      if tool_matches then
        let node_id := next_node_id (some parent_node_id) csc
        let (validation, st1) := run_step_validator env vc original_task
          system_prompt conversation current.output node_id node_id 0 st
        if validation.is_valid then
          (.ok ⟨current, csc + 1, node_id⟩, st1)
        else
          let validator_event := st1.trace.getLast?
          let st2 : RunState := { st1 with trace :=
            st1.trace.dropLast ++
              [create_trace_event node_id (some parent_node_id) csc
                agent_config.name system_prompt conversation
                (.agent current.output) current.reasoning current.timing
                "agent_step" none] ++ validator_event.toList }
          let csc2 := csc + 1
          if attempt < max_attempts then
            let temp_conversation := conversation ++
              [⟨"assistant", "Planned step:\n\"" ++ current.output.next_action ++
                  "\"\n\nPlan rejected by validator."⟩,
               ⟨"user", "Your plan was rejected: " ++ validation.rejection_message ++
                  "\n\nPlease revise your approach."⟩]
            match env.agentLLM st2.agentCalls temp_conversation with
            | .error e => (.error e, { st2 with agentCalls := st2.agentCalls + 1 })
            | .ok next_result =>
                vrsLoop env agent_config system_prompt conversation original_task vc
                  max_attempts parent_node_id current_recursion_depth recurse rest
                  next_result csc2 (some node_id)
                  { st2 with agentCalls := st2.agentCalls + 1 }
          else
            vrsLoop env agent_config system_prompt conversation original_task vc
              max_attempts parent_node_id current_recursion_depth recurse rest
              current csc2 (some node_id) st2
      else
        if current_recursion_depth ≥ 3 then
          (.ok ⟨current, csc, next_node_id (some parent_node_id) csc⟩, st)
        else
          recurse current csc st

/-- The body of `validate_and_retry_step` before the attempt loop
(loop.py:160-194): passthrough when the proposal has no function or no
validator matches, otherwise enter the `for attempt in range(max_attempts+1)`
loop with the given re-dispatch continuation. -/
def vrsEntryBody (env : LoopEnv) (agent_config : AgentConfig)
    (registry : List ValidatorConfig) (system_prompt : String)
    (conversation : List Message) (original_task : String)
    (recurse : LLMResult → Nat → RunState → Except String VRSOut × RunState)
    (llm_result : LLMResult) (parent_node_id : String)
    (step_count current_recursion_depth : Nat) (st : RunState) :
    Except String VRSOut × RunState :=
  match llm_result.parsed.function with
  | none =>
      (.ok ⟨llm_result, step_count + 1,
        next_node_id (some parent_node_id) step_count⟩, st)
  | some function_to_execute =>
    match find_validator registry agent_config.name function_to_execute with
    | none =>
        (.ok ⟨llm_result, step_count + 1,
          next_node_id (some parent_node_id) step_count⟩, st)
    | some validator_config =>
        vrsLoop env agent_config system_prompt conversation original_task
          validator_config (validator_config.max_attempts.getD 1) parent_node_id
          current_recursion_depth recurse
          (List.range (validator_config.max_attempts.getD 1 + 1)) llm_result
          step_count none st

/-- Embeds `validate_and_retry_step` (loop.py:144-270).  The depth-capped
re-dispatch recursion is made structural by `fuel`; callers pass
`fuel = 4 - current_recursion_depth`, so the `fuel = 0` continuation is
unreachable (the `current_recursion_depth >= 3` guard in `vrsLoop` fires
first) and is defined to mirror the guard's passthrough result. -/
def validate_and_retry_step (env : LoopEnv) (agent_config : AgentConfig)
    (registry : List ValidatorConfig) (system_prompt : String)
    (conversation : List Message) (original_task : String) :
    Nat → LLMResult → String → Nat → Nat → RunState →
      Except String VRSOut × RunState
  | 0, llm_result, parent_node_id, step_count, current_recursion_depth, st =>
      vrsEntryBody env agent_config registry system_prompt conversation
        original_task
        (fun cur csc st0 =>
          (.ok ⟨cur, csc, next_node_id (some parent_node_id) csc⟩, st0))
        llm_result parent_node_id step_count current_recursion_depth st
  | fuel + 1, llm_result, parent_node_id, step_count, current_recursion_depth, st =>
      vrsEntryBody env agent_config registry system_prompt conversation
        original_task
        (fun cur csc st0 =>
          validate_and_retry_step env agent_config registry system_prompt
            conversation original_task fuel cur parent_node_id csc
            (current_recursion_depth + 1) st0)
        llm_result parent_node_id step_count current_recursion_depth st

/-- The re-dispatch continuation built by `validate_and_retry_step` (the same
match on `fuel` as in its body, named so lemmas can refer to it). -/
def vrsRecurse (env : LoopEnv) (agent_config : AgentConfig)
    (registry : List ValidatorConfig) (system_prompt : String)
    (conversation : List Message) (original_task : String) (fuel : Nat)
    (parent_node_id : String) (current_recursion_depth : Nat) :
    LLMResult → Nat → RunState → Except String VRSOut × RunState :=
  match fuel with
  | 0 => fun cur csc st0 =>
      (.ok ⟨cur, csc, next_node_id (some parent_node_id) csc⟩, st0)
  | f + 1 => fun cur csc st0 =>
      validate_and_retry_step env agent_config registry system_prompt
        conversation original_task f cur parent_node_id csc
        (current_recursion_depth + 1) st0

/-- The terminal return value of `run_agent_loop`. -/
structure FinalResult where
  status : String
  outcome : String
  message : String
  links : List String
  orchestrator_log : List Message
deriving DecidableEq, Repr

/-- The failure channels of `run_agent_loop`: the deliberately raised
`AgentStepLimitError`, the `ValueError` for a function-less step, and a
propagated `call_llm` exception. -/
inductive LoopError where
  | stepLimit (msg : String)
  | valueErrorNoFunction (msg : String)
  | llmError (e : String)
deriving DecidableEq, Repr

/-- The `for _ in range(max_steps)` loop of `run_agent_loop`
(loop.py:300-371), structural on the remaining iteration count; falling out
of the loop raises `AgentStepLimitError`.  `iterations` counts executed
loop-body entries (instrumentation). -/
def ralGo (env : LoopEnv) (agent_config : AgentConfig)
    (registry : List ValidatorConfig) (parent_node_id : String)
    (initial_context : String) :
    Nat → List Message → Nat → RunState →
      Except LoopError FinalResult × RunState
  | 0, _conversation, _step_count, st =>
      (.error (.stepLimit ("Agent " ++ agent_config.name ++ " exceeded " ++
        toString agent_config.max_steps ++ " steps without completing.")), st)
  | remaining + 1, conversation, step_count, st =>
      let st := { st with iterations := st.iterations + 1 }
      match env.agentLLM st.agentCalls conversation with
      | .error e => (.error (.llmError e), { st with agentCalls := st.agentCalls + 1 })
      | .ok llm_result0 =>
        let st := { st with agentCalls := st.agentCalls + 1 }
        match validate_and_retry_step env agent_config registry
            agent_config.system_prompt conversation initial_context
            4 llm_result0 parent_node_id step_count 0 st with
        | (.error e, st1) => (.error (.llmError e), st1)
        | (.ok v, st1) =>
          let llm_result := v.llm_result
          let node_id := v.node_id
          let step_count := v.step_count
          let job := llm_result.parsed
          let latest_plan := job.remaining_work
          match job.function with
          | none =>
              (.error (.valueErrorNoFunction
                "Agent produced a step without a function to execute."), st1)
          | some function_to_execute =>
            let sdk_result := env.tools st1.toolExecs job
            let st2 : RunState := { st1 with toolExecs := st1.toolExecs + 1 }
            let st3 : RunState := { st2 with trace := st2.trace ++
              [create_trace_event node_id (some parent_node_id) (step_count - 1)
                agent_config.name agent_config.system_prompt conversation
                (.agent llm_result.output) llm_result.reasoning llm_result.timing
                "agent_step" (some sdk_result.tool_calls)] }
            let assistant_content := "Step completed.\nAction: " ++ job.next_action ++
              "\nTool called: " ++ env.dumpFunc function_to_execute ++
              "\nResponse received: " ++ sdk_result.text
            let conversation := inject_plan conversation latest_plan
            let conversation := conversation ++ [⟨"assistant", assistant_content⟩]
            if function_to_execute.terminal then
              (.ok ⟨(if function_to_execute.outcome = "ok_answer" ∨
                      function_to_execute.outcome = "ok_not_found"
                     then "completed" else "refused"),
                    function_to_execute.outcome, function_to_execute.message,
                    function_to_execute.links, conversation⟩, st3)
            else
              ralGo env agent_config registry parent_node_id initial_context
                remaining conversation step_count st3

/-- Embeds `run_agent_loop` (loop.py:277-371). -/
def run_agent_loop (env : LoopEnv) (agent_config : AgentConfig)
    (registry : List ValidatorConfig) (initial_context : String)
    (parent_node_id : String) (st : RunState) :
    Except LoopError FinalResult × RunState :=
  ralGo env agent_config registry parent_node_id initial_context
    agent_config.max_steps [⟨"user", initial_context⟩] 0 st

/-! ### Trace-shape descriptions used by the loop theorems -/

/-- The agent_step event logged for a rejected attempt via the pop/re-append
reordering (loop.py:229-243). -/
def rejectedAgentEvent (agent_config : AgentConfig) (system_prompt : String)
    (conversation : List Message) (parent_node_id : String) (csc : Nat)
    (prop : LLMResult) : TraceEvent :=
  create_trace_event (next_node_id (some parent_node_id) csc) (some parent_node_id)
    csc agent_config.name system_prompt conversation (.agent prop.output)
    prop.reasoning prop.timing "agent_step" none

/-- The validator_step event logged for one validation attempt: loop.py:207-220
wires `validates_node_id = parent_node_id = node_id` and `sibling_count = 0`,
so the event's own id is the attempt's node id extended by `".1"`. -/
def attemptValidatorEvent (env : LoopEnv) (system_prompt : String)
    (conversation : List Message) (vc : ValidatorConfig) (parent_node_id : String)
    (csc : Nat) (prop : LLMResult) (r : ValidatorLLMResult) : TraceEvent :=
  create_validator_event
    (next_node_id (some (next_node_id (some parent_node_id) csc)) 0)
    (some (next_node_id (some parent_node_id) csc)) 0
    (next_node_id (some parent_node_id) csc) vc.name r.parsed.is_valid
    vc.system_prompt
    [⟨"user", validatorUserMessage env system_prompt conversation prop.output⟩]
    (.validator r.parsed) r.reasoning r.timing

/-- The `[agent_step, validator_step]` pair logged for the `j`-th rejected
attempt of a validation sequence starting at sibling counter `csc`. -/
def rejectedPair (env : LoopEnv) (agent_config : AgentConfig)
    (system_prompt : String) (conversation : List Message)
    (vc : ValidatorConfig) (parent_node_id : String) (csc : Nat)
    (prop : LLMResult) (r : ValidatorLLMResult) : List TraceEvent :=
  [rejectedAgentEvent agent_config system_prompt conversation parent_node_id csc prop,
   attemptValidatorEvent env system_prompt conversation vc parent_node_id csc prop r]

/-- The `k` rejected `[agent_step, validator_step]` pairs of a validation
sequence, in trace order. -/
def rejectedPairs (env : LoopEnv) (agent_config : AgentConfig)
    (system_prompt : String) (conversation : List Message)
    (vc : ValidatorConfig) (parent_node_id : String) (csc : Nat)
    (props : Nat → LLMResult) (rejs : Nat → ValidatorLLMResult) (k : Nat) :
    List TraceEvent :=
  (List.range k).flatMap (fun j =>
    rejectedPair env agent_config system_prompt conversation vc parent_node_id
      (csc + j) (props j) (rejs j))

/-- The agent_step event `run_agent_loop` logs for the executed decision
(loop.py:334-346), with the tool-call records of the `execute_erc3_tools`
invocation attached. -/
def executedAgentEvent (env : LoopEnv) (agent_config : AgentConfig)
    (conversation : List Message) (parent_node_id : String) (node_id : String)
    (sibling_index : Nat) (prop : LLMResult) (toolIdx : Nat) : TraceEvent :=
  create_trace_event node_id (some parent_node_id) sibling_index
    agent_config.name agent_config.system_prompt conversation
    (.agent prop.output) prop.reasoning prop.timing "agent_step"
    (some (env.tools toolIdx prop.parsed).tool_calls)

/-! ### Concrete counterexample runs -/

/-- A terminal `/respond` function object. -/
def exFunc : Func := ⟨"Req_ProvideAgentResponse", true, "ok_answer", "done", []⟩

/-- A proposal whose function is the terminal respond call. -/
def exJob : Job := ⟨some exFunc, none, "respond to the user"⟩

/-- The constant agent-LLM result used by the counterexample oracles. -/
def exLLMResult : LLMResult := ⟨exJob, exJob, none, 0⟩

/-- An approving validator response. -/
def exApprove : ValidatorLLMResult := ⟨⟨true, "", "fine"⟩, none, 0⟩

/-- A rejecting validator response. -/
def exReject : ValidatorLLMResult := ⟨⟨false, "not allowed", "bad"⟩, none, 0⟩

/-- A validator bound to every tool and agent, with `max_attempts = 1`. -/
def exVC : ValidatorConfig := ⟨"StepValidator", "vsys", fun _ => true, .wildcard, some 1⟩

/-- A small agent configuration. -/
def exCfg : AgentConfig := ⟨"Agent", "asys", 40⟩

/-- Oracles whose validator approves every proposal. -/
def exEnvApprove : LoopEnv :=
  ⟨fun _ _ => .ok exLLMResult, fun _ _ => .ok exApprove,
   fun _ _ => ⟨"resp", ["tc"]⟩, fun _ => "fdump", fun _ => "jdump"⟩

/-- Oracles whose validator rejects every proposal. -/
def exEnvReject : LoopEnv :=
  ⟨fun _ _ => .ok exLLMResult, fun _ _ => .ok exReject,
   fun _ _ => ⟨"resp", ["tc"]⟩, fun _ => "fdump", fun _ => "jdump"⟩

/-- The empty initial run state. -/
def st0 : RunState := ⟨[], 0, 0, 0, 0⟩

/-- A full run in which the single decision is approved immediately. -/
def exRunApprove : Except LoopError FinalResult × RunState :=
  run_agent_loop exEnvApprove exCfg [exVC] "task" "0" st0

/-- A full run in which every validation attempt is rejected, so the final
decision is force-approved and executed. -/
def exRunReject : Except LoopError FinalResult × RunState :=
  run_agent_loop exEnvReject exCfg [exVC] "task" "0" st0

/-- A non-terminal search function object. -/
def exFuncNT : Func := ⟨"Req_SearchEmployees", false, "error_internal", "", []⟩

/-- A proposal that always picks the non-terminal search tool. -/
def exJobNT : Job := ⟨some exFuncNT, some ["look things up"], "search"⟩

/-- The corresponding agent LLM result. -/
def exLLMNT : LLMResult := ⟨exJobNT, exJobNT, none, 0⟩

/-- Oracles whose agent LLM always proposes the non-terminal tool and whose
validator always approves. -/
def exEnvNT : LoopEnv :=
  ⟨fun _ _ => .ok exLLMNT, fun _ _ => .ok exApprove,
   fun _ _ => ⟨"resp", ["tc"]⟩, fun _ => "fdump", fun _ => "jdump"⟩

/-- A two-step agent configuration. -/
def exCfg2 : AgentConfig := ⟨"Agent", "asys", 2⟩

/-- Oracles whose validator LLM call always raises. -/
def exEnvErr : LoopEnv :=
  ⟨fun _ _ => .ok exLLMResult, fun _ _ => .error "boom" 1,
   fun _ _ => ⟨"resp", ["tc"]⟩, fun _ => "fdump", fun _ => "jdump"⟩

/-! ### Bullshit caller (src/agent_execution.py, lines 119-248) -/

/-- A CompleteTask/RefuseTask terminal action, as `run_bullshit_caller`
reads it. -/
structure TerminalAction where
  isComplete : Bool
  report : String
deriving DecidableEq, Repr

/-- Modelled from the spec: `create_llm_event` is imported by
src/agent_execution.py from a revision of infrastructure.py that is not
present under src/; per the spec's TraceEvent model (§3, §4.2) and the
callers' docstrings it builds the unified `"llm_call"` event with the same
node/parent/prev-sibling/depth bookkeeping as `create_trace_event` and no
tool calls attached. -/
def create_llm_event (node_id : String) (parent_node_id : Option String)
    (sibling_index : Nat) (context : String) (system_prompt : String)
    (input_messages : List Message) (output : EventOutput)
    (reasoning : Option String) (timing : ℚ) : TraceEvent :=
  create_trace_event node_id parent_node_id sibling_index context system_prompt
    input_messages output reasoning timing "llm_call" none

/-- The user message built by `run_bullshit_caller`
(src/agent_execution.py:156-171). -/
def bullshitUserMessage (original_task : String) (conversation_log : List Message)
    (terminal_action : TerminalAction) (action_type : String) : String :=
  let conversation_summary := conversation_log.map
    (fun msg => "[" ++ msg.role ++ "]: " ++ msg.content)
  "Original task:\n" ++ original_task ++ "\n\nAgent's conversation history:\n" ++
    String.intercalate "\n" conversation_summary ++
    "\n\nTerminal action attempted: " ++ action_type ++
    "\nAgent's report: " ++ terminal_action.report ++
    "\n\nValidate this terminal action. Is the agent actually done, or are they bullshitting?"

/-- Embeds `run_bullshit_caller` (src/agent_execution.py:119-248): one LLM call
validating a terminal action, always logged as exactly one llm_call event;
fail-open (approved, empty rejection message) when the call raises.  `llm`
is the oracle for the whole `try` body (request plus JSON parse); `sysPrompt`
stands for `system_prompt_bullshit_caller`. -/
def run_bullshit_caller (llm : ValidatorCallOutcome) (sysPrompt : String)
    (original_task : String) (conversation_log : List Message)
    (terminal_action : TerminalAction) (parent_node_id : String)
    (sibling_count : Nat) (trace : List TraceEvent) :
    ValidationVerdict × List TraceEvent :=
  let node_id := next_node_id (some parent_node_id) sibling_count
  let action_type := if terminal_action.isComplete then "complete_task" else "refuse_task"
  let user_message :=
    bullshitUserMessage original_task conversation_log terminal_action action_type
  match llm with
  | .ok r =>
      (⟨r.parsed.is_valid, r.parsed.rejection_message, r.parsed.analysis⟩,
       trace ++ [create_llm_event node_id (some parent_node_id) sibling_count
         "BullshitCaller" sysPrompt [⟨"user", user_message⟩]
         (.bullshit action_type r.parsed) r.reasoning r.timing])
  | .error e elapsed =>
      (⟨true, "", "Validation error: " ++ e⟩,
       trace ++ [create_llm_event node_id (some parent_node_id) sibling_count
         "BullshitCaller" sysPrompt [⟨"user", user_message⟩]
         (.error e) none elapsed])

end Erc3

namespace Erc3

/-! ### Digit rendering facts used by the node-id theorems -/

theorem digitChar_ne_dot (n : Nat) : Nat.digitChar n ≠ '.' := by
  rcases Nat.lt_or_ge n 16 with h | h
  · interval_cases n <;> decide
  · have hne : ∀ k, k < 16 → n ≠ k := by omega
    unfold Nat.digitChar
    rw [if_neg (hne 0 (by norm_num)), if_neg (hne 1 (by norm_num)),
      if_neg (hne 2 (by norm_num)), if_neg (hne 3 (by norm_num)),
      if_neg (hne 4 (by norm_num)), if_neg (hne 5 (by norm_num)),
      if_neg (hne 6 (by norm_num)), if_neg (hne 7 (by norm_num)),
      if_neg (hne 8 (by norm_num)), if_neg (hne 9 (by norm_num)),
      if_neg (hne 10 (by norm_num)), if_neg (hne 11 (by norm_num)),
      if_neg (hne 12 (by norm_num)), if_neg (hne 13 (by norm_num)),
      if_neg (hne 14 (by norm_num)), if_neg (hne 15 (by norm_num))]
    decide

theorem toDigitsCore_ne_dot (b fuel n : Nat) (ds : List Char)
    (h : ∀ c ∈ ds, c ≠ '.') : ∀ c ∈ Nat.toDigitsCore b fuel n ds, c ≠ '.' := by
  induction fuel generalizing n ds with
  | zero => simpa [Nat.toDigitsCore] using h
  | succ f ih =>
    simp only [Nat.toDigitsCore]
    split
    · intro c hc
      rcases List.mem_cons.mp hc with h1 | h2
      · subst h1; exact digitChar_ne_dot _
      · exact h c h2
    · refine ih _ _ ?_
      intro c hc
      rcases List.mem_cons.mp hc with h1 | h2
      · subst h1; exact digitChar_ne_dot _
      · exact h c h2

theorem repr_ne_dot (n : Nat) : ∀ c ∈ (Nat.repr n).data, c ≠ '.' := by
  have hd : (Nat.repr n).data = Nat.toDigitsCore 10 (n + 1) n [] := rfl
  rw [hd]
  exact toDigitsCore_ne_dot 10 (n + 1) n [] (by simp)

theorem dotCount_repr (n : Nat) : dotCount (Nat.repr n) = 0 := by
  unfold dotCount
  exact List.count_eq_zero.mpr (fun h => repr_ne_dot n '.' h rfl)

theorem dotCount_append (a b : String) :
    dotCount (a ++ b) = dotCount a + dotCount b := by
  unfold dotCount
  rw [String.data_append, List.count_append]

end Erc3

namespace Erc3

/-! ### String-prefix facts -/

theorem pyStartsWith_append_of (s pre t : String) (h : pyStartsWith s pre = true) :
    pyStartsWith (s ++ t) pre = true := by
  unfold pyStartsWith at *
  rw [String.data_append]
  have h1 := List.isPrefixOf_iff_prefix.mp h
  exact List.isPrefixOf_iff_prefix.mpr (h1.trans (List.prefix_append _ _))

theorem isPlanMessage_injected (r ws : String) :
    isPlanMessage ⟨r, "Remaining work:\n" ++ ws⟩ = true := by
  unfold isPlanMessage
  exact pyStartsWith_append_of "Remaining work:\n" "Remaining work:" ws (by decide)

theorem planCount_filter_out (c : List Message) :
    planCount (c.filter (fun m => !isPlanMessage m)) = 0 := by
  unfold planCount
  rw [List.countP_eq_zero]
  intro m hm
  have := List.of_mem_filter hm
  simp_all

theorem inject_plan_truthy (c : List Message) (ws : List String)
    (h : ¬ ws.isEmpty = true) :
    inject_plan c (some ws) = c.filter (fun m => !isPlanMessage m) ++
      [{ role := "user", content := "Remaining work:\n" ++ planText ws }] := by
  simp [inject_plan, h]

theorem planCount_inject_plan_le_one (c : List Message) (w : Option (List String)) :
    planCount (inject_plan c w) ≤ 1 := by
  match w with
  | none => simp [inject_plan, planCount_filter_out]
  | some ws =>
    by_cases h : ws.isEmpty
    · simp [inject_plan, h, planCount_filter_out]
    · rw [inject_plan_truthy c ws h]
      unfold planCount at *
      rw [List.countP_append]
      have h0 := planCount_filter_out c
      unfold planCount at h0
      rw [h0]
      simp [List.countP_cons, isPlanMessage_injected]

/-! ### Claim theorems: node ids and plan injection -/

/-- C7: `next_node_id` is a pure deterministic function (two calls with
identical arguments give identical output); for every non-sentinel parent id
`P` the generated child id has depth `calculate_depth P + 1`; the sentinel id
`"0"` has depth `-1`; and every undotted id other than the sentinel has
depth `0`. -/
theorem nextNodeId_pure_and_depth_succ :
    (∀ (P : Option String) (i : Nat), next_node_id P i = next_node_id P i) ∧
    (∀ (P : String) (i : Nat), P ≠ "0" →
      calculate_depth (next_node_id (some P) i) = calculate_depth P + 1) ∧
    calculate_depth "0" = -1 ∧
    (∀ s : String, s ≠ "0" → dotCount s = 0 → calculate_depth s = 0) := by
  refine ⟨fun P i => rfl, ?_, by decide, ?_⟩
  · intro P i hP
    have hrepr : toString (i + 1) = Nat.repr (i + 1) := rfl
    have hdc : dotCount (P ++ "." ++ toString (i + 1)) = dotCount P + 1 := by
      rw [dotCount_append, dotCount_append, hrepr, dotCount_repr]
      have : dotCount "." = 1 := by decide
      omega
    have hne : P ++ "." ++ toString (i + 1) ≠ "0" := by
      intro hcontra
      have := hdc
      rw [hcontra] at this
      have h0 : dotCount "0" = 0 := by decide
      omega
    have hnn : next_node_id (some P) i = P ++ "." ++ toString (i + 1) := by
      simp [next_node_id, hP]
    rw [hnn]
    unfold calculate_depth
    rw [if_neg hne, if_neg hP, hdc]
    push_cast
    ring
  · intro s hs hdots
    unfold calculate_depth
    rw [if_neg hs, hdots]
    rfl

/-- C7 witness at concrete inputs. -/
theorem nextNodeId_pure_and_depth_succ_witness :
    calculate_depth (next_node_id (some "2.3") 4) = calculate_depth "2.3" + 1 ∧
    calculate_depth "17" = 0 :=
  ⟨nextNodeId_pure_and_depth_succ.2.1 "2.3" 4 (by decide),
   nextNodeId_pure_and_depth_succ.2.2.2 "17" (by decide) (by decide)⟩

/-- C6: after any nonempty sequence of `inject_plan` calls, with arbitrary
`remaining_work` arguments, the conversation contains at most one message
whose content starts with the remaining-work prefix; repeated calls replace
the plan instead of accumulating duplicates. -/
theorem injectPlan_at_most_one_plan (c : List Message)
    (args : List (Option (List String))) (h : args ≠ []) :
    planCount (args.foldl inject_plan c) ≤ 1 := by
  induction args generalizing c with
  | nil => exact absurd rfl h
  | cons a rest ih =>
    match rest with
    | [] => simpa using planCount_inject_plan_le_one c a
    | b :: rest2 => exact ih (inject_plan c a) (by simp)

/-- C6 witness: two pre-existing plan messages, one `inject_plan` call. -/
theorem injectPlan_at_most_one_plan_witness :
    planCount ([some ["a", "b"]].foldl inject_plan
      [⟨"user", "Remaining work:\n1. x"⟩, ⟨"user", "Remaining work:\n1. y"⟩]) ≤ 1 :=
  injectPlan_at_most_one_plan _ _ (by simp)

/-- C10: `inject_plan` with `None` or `[]` removes every remaining-work
message and appends nothing (zero plan messages remain), and for every
argument the non-plan messages are left unchanged in their relative order.
(The Python function updates the list in place via slice assignment and
returns the same list; the update is modelled functionally.) -/
theorem injectPlan_falsy_deletes_plan (c : List Message) :
    inject_plan c none = c.filter (fun m => !isPlanMessage m) ∧
    inject_plan c (some []) = c.filter (fun m => !isPlanMessage m) ∧
    planCount (inject_plan c none) = 0 ∧
    planCount (inject_plan c (some [])) = 0 ∧
    (∀ w, (inject_plan c w).filter (fun m => !isPlanMessage m) =
      c.filter (fun m => !isPlanMessage m)) := by
  refine ⟨rfl, rfl, planCount_filter_out c, planCount_filter_out c, ?_⟩
  intro w
  match w with
  | none => simp [inject_plan, List.filter_filter]
  | some ws =>
    by_cases h : ws.isEmpty
    · simp [inject_plan, h, List.filter_filter]
    · rw [inject_plan_truthy c ws h]
      rw [List.filter_append, List.filter_filter]
      simp [isPlanMessage_injected]

end Erc3

namespace Erc3

/-! ### Gateway retry lemmas -/

theorem gatewayGo_ok (call : Nat → Except ε ρ) (fuel attempt : Nat) (acc : List ℚ)
    (r : ρ) (h : call attempt = .ok r) :
    gatewayGo call fuel attempt acc = ⟨.ok r, attempt + 1, acc⟩ := by
  unfold gatewayGo
  rw [h]

theorem gatewayGo_err_zero (call : Nat → Except ε ρ) (attempt : Nat) (acc : List ℚ)
    (e : ε) (h : call attempt = .error e) :
    gatewayGo call 0 attempt acc = ⟨.error e, attempt + 1, acc⟩ := by
  unfold gatewayGo
  rw [h]

theorem gatewayGo_err_succ (call : Nat → Except ε ρ) (f attempt : Nat) (acc : List ℚ)
    (e : ε) (h : call attempt = .error e) :
    gatewayGo call (f + 1) attempt acc =
      gatewayGo call f (attempt + 1) (acc ++ [backoffSeconds]) := by
  conv_lhs => unfold gatewayGo
  rw [h]

theorem gatewayGo_attempts_le (call : Nat → Except ε ρ) :
    ∀ (fuel attempt : Nat) (acc : List ℚ),
      (gatewayGo call fuel attempt acc).attemptsMade ≤ attempt + fuel + 1 := by
  intro fuel
  induction fuel with
  | zero =>
    intro attempt acc
    rcases h : call attempt with e | r
    · rw [gatewayGo_err_zero call attempt acc e h]
    · rw [gatewayGo_ok call 0 attempt acc r h]
  | succ f ih =>
    intro attempt acc
    rcases h : call attempt with e | r
    · have hrec := ih (attempt + 1) (acc ++ [backoffSeconds])
      rw [gatewayGo_err_succ call f attempt acc e h]
      omega
    · rw [gatewayGo_ok call (f + 1) attempt acc r h]
      simp

theorem gatewayGo_first_success (call : Nat → Except ε ρ) :
    ∀ (k fuel attempt : Nat) (acc : List ℚ) (r : ρ),
      k ≤ fuel →
      (∀ i, attempt ≤ i → i < attempt + k → ∃ e, call i = .error e) →
      call (attempt + k) = .ok r →
      gatewayGo call fuel attempt acc =
        ⟨.ok r, attempt + k + 1, acc ++ List.replicate k backoffSeconds⟩ := by
  intro k
  induction k with
  | zero =>
    intro fuel attempt acc r _ _ hok
    rw [Nat.add_zero] at hok
    rw [gatewayGo_ok call fuel attempt acc r hok]
    simp
  | succ k ih =>
    intro fuel attempt acc r hk hErr hok
    obtain ⟨e, he⟩ := hErr attempt (Nat.le_refl _) (by omega)
    obtain ⟨f, rfl⟩ : ∃ f, fuel = f + 1 := ⟨fuel - 1, by omega⟩
    rw [gatewayGo_err_succ call f attempt acc e he]
    have hok' : call (attempt + 1 + k) = .ok r := by
      rw [show attempt + 1 + k = attempt + (k + 1) from by omega]
      exact hok
    have := ih f (attempt + 1) (acc ++ [backoffSeconds]) r (by omega)
      (fun i h1 h2 => hErr i (by omega) (by omega)) hok'
    rw [this]
    congr 1
    · omega
    · simp [List.replicate_succ, List.append_assoc]

theorem gatewayGo_all_fail (call : Nat → Except ε ρ) :
    ∀ (fuel attempt : Nat) (acc : List ℚ) (e : ε),
      (∀ i, attempt ≤ i → i < attempt + fuel → ∃ e0, call i = .error e0) →
      call (attempt + fuel) = .error e →
      gatewayGo call fuel attempt acc =
        ⟨.error e, attempt + fuel + 1, acc ++ List.replicate fuel backoffSeconds⟩ := by
  intro fuel
  induction fuel with
  | zero =>
    intro attempt acc e _ hlast
    rw [Nat.add_zero] at hlast
    rw [gatewayGo_err_zero call attempt acc e hlast]
    simp
  | succ f ih =>
    intro attempt acc e hErr hlast
    obtain ⟨e0, he0⟩ := hErr attempt (Nat.le_refl _) (by omega)
    rw [gatewayGo_err_succ call f attempt acc e0 he0]
    have hlast' : call (attempt + 1 + f) = .error e := by
      rw [show attempt + 1 + f = attempt + (f + 1) from by omega]
      exact hlast
    have := ih (attempt + 1) (acc ++ [backoffSeconds]) e
      (fun i h1 h2 => hErr i (by omega) (by omega)) hlast'
    rw [this]
    congr 1
    · omega
    · simp [List.replicate_succ, List.append_assoc]

/-- C9: the LLM call gateway `get_next_step` attempts the request at most 4
times in total (3 extra retries), with a fixed 0.5-second backoff between
attempts; it returns the first successfully parsed result, and if all 4
attempts raise it propagates the last exception to the caller. -/
theorem getNextStep_retry_contract (call : Nat → Except ε ρ) :
    (get_next_step call).attemptsMade ≤ 4 ∧
    (∀ j r, j ≤ 3 → (∀ i, i < j → ∃ e, call i = .error e) → call j = .ok r →
      get_next_step call = ⟨.ok r, j + 1, List.replicate j backoffSeconds⟩) ∧
    (∀ e, (∀ i, i < 3 → ∃ e0, call i = .error e0) → call 3 = .error e →
      get_next_step call = ⟨.error e, 4, List.replicate 3 backoffSeconds⟩) := by
  refine ⟨?_, ?_, ?_⟩
  · simpa [get_next_step] using gatewayGo_attempts_le call 3 0 []
  · intro j r hj hErr hok
    have := gatewayGo_first_success call j 3 0 [] r hj
      (fun i _ h2 => hErr i (by omega)) (by simpa using hok)
    simpa [get_next_step] using this
  · intro e hErr hlast
    have := gatewayGo_all_fail call 3 0 [] e
      (fun i _ h2 => hErr i (by omega)) (by simpa using hlast)
    simpa [get_next_step] using this

/-- C9 witness: an always-raising oracle makes exactly 4 attempts, sleeps 3
times, and propagates the last exception. -/
theorem getNextStep_retry_contract_witness :
    get_next_step (fun _ => (Except.error "boom" : Except String Unit)) =
      ⟨Except.error "boom", 4, List.replicate 3 backoffSeconds⟩ :=
  (getNextStep_retry_contract _).2.2 "boom" (fun _ _ => ⟨"boom", rfl⟩) rfl

end Erc3

namespace Erc3

/-! ### Batch fail-fast lemmas -/

theorem executeBatchGo_cons_ok (env : BatchEnv α) (total : Nat) (f : α)
    (rest : List α) (idx : Nat) (a b : String)
    (h : env.dispatch f = .ok a b) :
    execute_batch_go env total (f :: rest) idx =
      ⟨batchParagraph (env.dumpJson f) (env.appendBasket f a) ::
         (execute_batch_go env total rest (idx + 1)).text_parts,
       ⟨env.dump f, .ok b⟩ :: (execute_batch_go env total rest (idx + 1)).tool_calls,
       f :: (execute_batch_go env total rest (idx + 1)).dispatched⟩ := by
  conv_lhs => unfold execute_batch_go
  rw [h]

theorem executeBatchGo_cons_timeout (env : BatchEnv α) (total : Nat) (f : α)
    (rest : List α) (idx : Nat) (msg : String)
    (h : env.dispatch f = .timeout msg) :
    execute_batch_go env total (f :: rest) idx =
      ⟨batchParagraph (env.dumpJson f) ("\x7b\"error\": \"" ++ msg ++ "\"\x7d") ::
         (if idx < total then [abortNotice idx total] else []),
       [⟨env.dump f, .err msg⟩], [f]⟩ := by
  conv_lhs => unfold execute_batch_go
  rw [h]

theorem executeBatchGo_cons_apiError (env : BatchEnv α) (total : Nat) (f : α)
    (rest : List α) (idx : Nat) (detail : String)
    (h : env.dispatch f = .apiError detail) :
    execute_batch_go env total (f :: rest) idx =
      ⟨batchParagraph (env.dumpJson f) detail ::
         (if idx < total then [abortNotice idx total] else []),
       [⟨env.dump f, .err detail⟩], [f]⟩ := by
  conv_lhs => unfold execute_batch_go
  rw [h]

theorem executeBatchGo_fail_spec (env : BatchEnv α) (total : Nat) (fk : α)
    (post : List α) (m : String)
    (hfail : env.dispatch fk = .timeout m ∨ env.dispatch fk = .apiError m) :
    ∀ (pre : List α) (idx : Nat),
      (∀ f ∈ pre, ∃ a b, env.dispatch f = .ok a b) →
      (execute_batch_go env total (pre ++ fk :: post) idx).tool_calls.length =
          pre.length + 1 ∧
      (∀ j, (h : j < pre.length) → ∃ a b,
          env.dispatch (pre.get ⟨j, h⟩) = .ok a b ∧
          (execute_batch_go env total (pre ++ fk :: post) idx).tool_calls.get? j =
            some ⟨env.dump (pre.get ⟨j, h⟩), .ok b⟩) ∧
      (execute_batch_go env total (pre ++ fk :: post) idx).tool_calls.get? pre.length =
          some ⟨env.dump fk, .err m⟩ ∧
      (execute_batch_go env total (pre ++ fk :: post) idx).dispatched = pre ++ [fk] ∧
      (idx + pre.length < total →
        abortNotice (idx + pre.length) total ∈
          (execute_batch_go env total (pre ++ fk :: post) idx).text_parts) := by
  intro pre
  induction pre with
  | nil =>
    intro idx _
    have hexp : (execute_batch_go env total ([] ++ fk :: post) idx).tool_calls =
        [⟨env.dump fk, .err m⟩] ∧
        (execute_batch_go env total ([] ++ fk :: post) idx).dispatched = [fk] ∧
        (idx < total → abortNotice idx total ∈
          (execute_batch_go env total ([] ++ fk :: post) idx).text_parts) := by
      rcases hfail with hf | hf
      · rw [List.nil_append, executeBatchGo_cons_timeout env total fk post idx m hf]
        refine ⟨rfl, rfl, fun hlt => ?_⟩
        simp [hlt]
      · rw [List.nil_append, executeBatchGo_cons_apiError env total fk post idx m hf]
        refine ⟨rfl, rfl, fun hlt => ?_⟩
        simp [hlt]
    obtain ⟨htc, hd, hab⟩ := hexp
    refine ⟨by rw [htc]; rfl, ?_, by rw [htc]; rfl, by rw [hd]; rfl, ?_⟩
    · intro j hj
      exact absurd hj (by simp)
    · intro hlt
      simp only [List.length_nil, Nat.add_zero] at hlt ⊢
      exact hab hlt
  | cons f0 pre' ih =>
    intro idx hpre
    obtain ⟨a, b, hab⟩ := hpre f0 (List.mem_cons_self _ _)
    have hrec := ih (idx + 1) (fun g hg => hpre g (List.mem_cons_of_mem _ hg))
    obtain ⟨hlen, hok, herr, hdisp, habort⟩ := hrec
    have hexp := executeBatchGo_cons_ok env total f0 (pre' ++ fk :: post) idx a b hab
    rw [List.cons_append, hexp]
    refine ⟨?_, ?_, ?_, ?_, ?_⟩
    · simp [hlen]
    · intro j hj
      match j with
      | 0 => exact ⟨a, b, hab, by simp⟩
      | j + 1 =>
        obtain ⟨a', b', h1, h2⟩ := hok j (by simpa using hj)
        exact ⟨a', b', h1, by simpa using h2⟩
    · simpa using herr
    · simp [hdisp]
    · intro hlt
      have h1 : idx + (f0 :: pre').length = idx + 1 + pre'.length := by
        simp
        omega
      rw [h1] at hlt ⊢
      exact List.mem_cons_of_mem _ (habort hlt)

/-- C5: fail-fast batch execution.  For a batch where the first `k-1`
dispatches succeed and the `k`-th fails (timeout or application error) with
`k < n`, `execute_batch` returns exactly `k` tool-call records — `k-1`
successes followed by one failure record — appends an abort notice stating
how many of the requested operations were executed, and never dispatches the
remaining functions; no sub-call is dispatched twice. -/
theorem executeBatch_fail_fast (env : BatchEnv α) (pre : List α) (fk : α)
    (post : List α) (m : String)
    (hpre : ∀ f ∈ pre, ∃ a b, env.dispatch f = .ok a b)
    (hfail : env.dispatch fk = .timeout m ∨ env.dispatch fk = .apiError m)
    (hpost : post ≠ []) :
    (execute_batch env (pre ++ fk :: post)).tool_calls.length = pre.length + 1 ∧
    (∀ j, (h : j < pre.length) → ∃ a b,
        env.dispatch (pre.get ⟨j, h⟩) = .ok a b ∧
        (execute_batch env (pre ++ fk :: post)).tool_calls.get? j =
          some ⟨env.dump (pre.get ⟨j, h⟩), .ok b⟩) ∧
    (execute_batch env (pre ++ fk :: post)).tool_calls.get? pre.length =
        some ⟨env.dump fk, .err m⟩ ∧
    (execute_batch env (pre ++ fk :: post)).dispatched = pre ++ [fk] ∧
    abortNotice (pre.length + 1) (pre ++ fk :: post).length ∈
      (execute_batch env (pre ++ fk :: post)).text_parts := by
  have hs := executeBatchGo_fail_spec env (pre ++ fk :: post).length fk post m hfail pre 1 hpre
  obtain ⟨h1, h2, h3, h4, h5⟩ := hs
  refine ⟨h1, h2, h3, h4, ?_⟩
  have hlt : 1 + pre.length < (pre ++ fk :: post).length := by
    simp [List.length_append]
    cases post with
    | nil => exact absurd rfl hpost
    | cons _ _ => simp; omega
  have := h5 hlt
  rw [show 1 + pre.length = pre.length + 1 from by omega] at this
  exact this

/-- C5 witness: a batch of 5 where the third call times out yields 2 success
records, 1 failure record, an "Executed: 3 out of 5" abort notice, and only
the first three functions dispatched. -/
theorem executeBatch_fail_fast_witness :
    let env : BatchEnv Nat :=
      ⟨fun f => if f = 2 then .timeout "SDK operation timed out after 30 seconds"
                else .ok "rj" "rd",
       fun f => "req" ++ toString f, fun f => "dump" ++ toString f,
       fun _ t => t⟩
    (execute_batch env ([0, 1] ++ 2 :: [3, 4])).tool_calls.length = 3 ∧
    (execute_batch env ([0, 1] ++ 2 :: [3, 4])).dispatched = [0, 1] ++ [2] := by
  intro env
  have h := executeBatch_fail_fast env [0, 1] 2 [3, 4]
    "SDK operation timed out after 30 seconds"
    (by intro f hf; fin_cases hf <;> exact ⟨"rj", "rd", rfl⟩)
    (Or.inl rfl) (by simp)
  exact ⟨by simpa using h.1, h.2.2.2.1⟩

end Erc3

namespace Erc3

/-! ### Step lemmas for the validation retry loop -/

theorem run_step_validator_ok (env : LoopEnv) (vc : ValidatorConfig)
    (task sysP : String) (conv : List Message) (out : Job)
    (vnid pnid : String) (sc : Nat) (st : RunState) (r : ValidatorLLMResult)
    (h : env.validatorLLM st.validatorCalls
      [⟨"user", validatorUserMessage env sysP conv out⟩] = .ok r) :
    run_step_validator env vc task sysP conv out vnid pnid sc st =
      (⟨r.parsed.is_valid, r.parsed.rejection_message, r.parsed.analysis⟩,
       { st with
          trace := st.trace ++ [create_validator_event
            (next_node_id (some pnid) sc) (some pnid) sc vnid vc.name
            r.parsed.is_valid vc.system_prompt
            [⟨"user", validatorUserMessage env sysP conv out⟩]
            (.validator r.parsed) r.reasoning r.timing],
          validatorCalls := st.validatorCalls + 1 }) := by
  unfold run_step_validator
  dsimp only
  rw [h]

theorem run_step_validator_err (env : LoopEnv) (vc : ValidatorConfig)
    (task sysP : String) (conv : List Message) (out : Job)
    (vnid pnid : String) (sc : Nat) (st : RunState) (exc : String) (elapsed : ℚ)
    (h : env.validatorLLM st.validatorCalls
      [⟨"user", validatorUserMessage env sysP conv out⟩] = .error exc elapsed) :
    run_step_validator env vc task sysP conv out vnid pnid sc st =
      (⟨true, "", "Validation error: " ++ exc⟩,
       { st with
          trace := st.trace ++ [create_validator_event
            (next_node_id (some pnid) sc) (some pnid) sc vnid vc.name
            true vc.system_prompt
            [⟨"user", validatorUserMessage env sysP conv out⟩]
            (.error exc) none elapsed],
          validatorCalls := st.validatorCalls + 1 }) := by
  unfold run_step_validator
  dsimp only
  rw [h]

theorem vrsLoop_nil (env : LoopEnv) (cfg : AgentConfig) (sysP : String)
    (conv : List Message) (task : String) (vc : ValidatorConfig)
    (maxA : Nat) (parent : String) (depth : Nat)
    (recurse : LLMResult → Nat → RunState → Except String VRSOut × RunState)
    (current : LLMResult) (csc : Nat) (prev : Option String) (st : RunState) :
    vrsLoop env cfg sysP conv task vc maxA parent depth recurse []
        current csc prev st =
      (.ok ⟨current, csc, prev.getD "0"⟩, st) := rfl

theorem vrsLoop_approve_step (env : LoopEnv) (cfg : AgentConfig) (sysP : String)
    (conv : List Message) (task : String) (vc : ValidatorConfig)
    (maxA : Nat) (parent : String) (depth : Nat)
    (recurse : LLMResult → Nat → RunState → Except String VRSOut × RunState)
    (attempt : Nat) (rest : List Nat) (current : LLMResult) (csc : Nat)
    (prev : Option String) (st : RunState) (f : Func) (r : ValidatorLLMResult)
    (hf : current.parsed.function = some f)
    (htrig : vc.triggers_on_tools f = true)
    (hval : env.validatorLLM st.validatorCalls
      [⟨"user", validatorUserMessage env sysP conv current.output⟩] = .ok r)
    (happ : r.parsed.is_valid = true) :
    vrsLoop env cfg sysP conv task vc maxA parent depth recurse
        (attempt :: rest) current csc prev st =
      (.ok ⟨current, csc + 1, next_node_id (some parent) csc⟩,
       { st with
          trace := st.trace ++
            [attemptValidatorEvent env sysP conv vc parent csc current r],
          validatorCalls := st.validatorCalls + 1 }) := by
  conv_lhs => unfold vrsLoop
  simp only [hf, htrig, eq_self_iff_true, if_true]
  rw [run_step_validator_ok env vc task sysP conv current.output
    (next_node_id (some parent) csc) (next_node_id (some parent) csc) 0 st r hval]
  simp only [happ, eq_self_iff_true, if_true, attemptValidatorEvent]

theorem vrsLoop_reject_retry_step (env : LoopEnv) (cfg : AgentConfig)
    (sysP : String) (conv : List Message) (task : String) (vc : ValidatorConfig)
    (maxA : Nat) (parent : String) (depth : Nat)
    (recurse : LLMResult → Nat → RunState → Except String VRSOut × RunState)
    (attempt : Nat) (rest : List Nat) (current : LLMResult) (csc : Nat)
    (prev : Option String) (st : RunState) (f : Func) (r : ValidatorLLMResult)
    (next_result : LLMResult)
    (hf : current.parsed.function = some f)
    (htrig : vc.triggers_on_tools f = true)
    (hval : env.validatorLLM st.validatorCalls
      [⟨"user", validatorUserMessage env sysP conv current.output⟩] = .ok r)
    (hrej : r.parsed.is_valid = false)
    (hguard : attempt < maxA)
    (hagent : env.agentLLM st.agentCalls (conv ++
      [⟨"assistant", "Planned step:\n\"" ++ current.output.next_action ++
          "\"\n\nPlan rejected by validator."⟩,
       ⟨"user", "Your plan was rejected: " ++ r.parsed.rejection_message ++
          "\n\nPlease revise your approach."⟩]) = .ok next_result) :
    vrsLoop env cfg sysP conv task vc maxA parent depth recurse
        (attempt :: rest) current csc prev st =
      vrsLoop env cfg sysP conv task vc maxA parent depth recurse rest
        next_result (csc + 1) (some (next_node_id (some parent) csc))
        { st with
            trace := st.trace ++
              rejectedPair env cfg sysP conv vc parent csc current r,
            validatorCalls := st.validatorCalls + 1,
            agentCalls := st.agentCalls + 1 } := by
  conv_lhs => unfold vrsLoop
  simp only [hf, htrig, eq_self_iff_true, if_true]
  rw [run_step_validator_ok env vc task sysP conv current.output
    (next_node_id (some parent) csc) (next_node_id (some parent) csc) 0 st r hval]
  simp only [hrej, Bool.false_eq_true, if_false, List.getLast?_concat,
    List.dropLast_concat, hguard, if_true, hagent]
  simp [rejectedPair, rejectedAgentEvent, attemptValidatorEvent, hrej]

theorem vrsLoop_reject_last_step (env : LoopEnv) (cfg : AgentConfig)
    (sysP : String) (conv : List Message) (task : String) (vc : ValidatorConfig)
    (maxA : Nat) (parent : String) (depth : Nat)
    (recurse : LLMResult → Nat → RunState → Except String VRSOut × RunState)
    (attempt : Nat) (rest : List Nat) (current : LLMResult) (csc : Nat)
    (prev : Option String) (st : RunState) (f : Func) (r : ValidatorLLMResult)
    (hf : current.parsed.function = some f)
    (htrig : vc.triggers_on_tools f = true)
    (hval : env.validatorLLM st.validatorCalls
      [⟨"user", validatorUserMessage env sysP conv current.output⟩] = .ok r)
    (hrej : r.parsed.is_valid = false)
    (hguard : ¬ attempt < maxA) :
    vrsLoop env cfg sysP conv task vc maxA parent depth recurse
        (attempt :: rest) current csc prev st =
      vrsLoop env cfg sysP conv task vc maxA parent depth recurse rest
        current (csc + 1) (some (next_node_id (some parent) csc))
        { st with
            trace := st.trace ++
              rejectedPair env cfg sysP conv vc parent csc current r,
            validatorCalls := st.validatorCalls + 1 } := by
  conv_lhs => unfold vrsLoop
  simp only [hf, htrig, eq_self_iff_true, if_true]
  rw [run_step_validator_ok env vc task sysP conv current.output
    (next_node_id (some parent) csc) (next_node_id (some parent) csc) 0 st r hval]
  simp only [hrej, Bool.false_eq_true, if_false, List.getLast?_concat,
    List.dropLast_concat, hguard, if_false]
  simp [rejectedPair, rejectedAgentEvent, attemptValidatorEvent, hrej]

theorem vrsLoop_validator_error_step (env : LoopEnv) (cfg : AgentConfig)
    (sysP : String) (conv : List Message) (task : String) (vc : ValidatorConfig)
    (maxA : Nat) (parent : String) (depth : Nat)
    (recurse : LLMResult → Nat → RunState → Except String VRSOut × RunState)
    (attempt : Nat) (rest : List Nat) (current : LLMResult) (csc : Nat)
    (prev : Option String) (st : RunState) (f : Func) (exc : String) (elapsed : ℚ)
    (hf : current.parsed.function = some f)
    (htrig : vc.triggers_on_tools f = true)
    (hval : env.validatorLLM st.validatorCalls
      [⟨"user", validatorUserMessage env sysP conv current.output⟩] =
        .error exc elapsed) :
    vrsLoop env cfg sysP conv task vc maxA parent depth recurse
        (attempt :: rest) current csc prev st =
      (.ok ⟨current, csc + 1, next_node_id (some parent) csc⟩,
       { st with
          trace := st.trace ++ [create_validator_event
            (next_node_id (some (next_node_id (some parent) csc)) 0)
            (some (next_node_id (some parent) csc)) 0
            (next_node_id (some parent) csc) vc.name true vc.system_prompt
            [⟨"user", validatorUserMessage env sysP conv current.output⟩]
            (.error exc) none elapsed],
          validatorCalls := st.validatorCalls + 1 }) := by
  conv_lhs => unfold vrsLoop
  simp only [hf, htrig, eq_self_iff_true, if_true]
  rw [run_step_validator_err env vc task sysP conv current.output
    (next_node_id (some parent) csc) (next_node_id (some parent) csc) 0 st exc elapsed hval]
  simp

end Erc3

namespace Erc3

/-! ### Composition lemmas for validation sequences -/

theorem rejectedPairs_zero (env : LoopEnv) (cfg : AgentConfig) (sysP : String)
    (conv : List Message) (vc : ValidatorConfig) (parent : String) (csc : Nat)
    (props : Nat → LLMResult) (rejs : Nat → ValidatorLLMResult) :
    rejectedPairs env cfg sysP conv vc parent csc props rejs 0 = [] := rfl

theorem rejectedPairs_succ (env : LoopEnv) (cfg : AgentConfig) (sysP : String)
    (conv : List Message) (vc : ValidatorConfig) (parent : String) (csc : Nat)
    (props : Nat → LLMResult) (rejs : Nat → ValidatorLLMResult) (k : Nat) :
    rejectedPairs env cfg sysP conv vc parent csc props rejs (k + 1) =
      rejectedPairs env cfg sysP conv vc parent csc props rejs k ++
        rejectedPair env cfg sysP conv vc parent (csc + k) (props k) (rejs k) := by
  unfold rejectedPairs
  rw [List.range_succ, List.flatMap_append]
  simp

theorem vrsLoop_reject_run (env : LoopEnv) (cfg : AgentConfig) (sysP : String)
    (conv : List Message) (task : String) (vc : ValidatorConfig) (maxA : Nat)
    (parent : String) (depth : Nat)
    (recurse : LLMResult → Nat → RunState → Except String VRSOut × RunState)
    (props : Nat → LLMResult) (rejs : Nat → ValidatorLLMResult) :
    ∀ (j a m csc : Nat) (prev : Option String) (st : RunState),
      j ≤ m →
      (∀ i, i < j → ∃ f, (props i).parsed.function = some f ∧
        vc.triggers_on_tools f = true) →
      (∀ i, i < j → ∀ msgs, env.validatorLLM (st.validatorCalls + i) msgs =
        .ok (rejs i)) →
      (∀ i, i < j → (rejs i).parsed.is_valid = false) →
      (∀ i, i < j → a + i < maxA) →
      (∀ i, i < j → ∀ msgs, env.agentLLM (st.agentCalls + i) msgs =
        .ok (props (i + 1))) →
      vrsLoop env cfg sysP conv task vc maxA parent depth recurse
          (List.range' a m) (props 0) csc prev st =
        vrsLoop env cfg sysP conv task vc maxA parent depth recurse
          (List.range' (a + j) (m - j)) (props j) (csc + j)
          (if j = 0 then prev else some (next_node_id (some parent) (csc + (j - 1))))
          { st with
              trace := st.trace ++
                rejectedPairs env cfg sysP conv vc parent csc props rejs j,
              validatorCalls := st.validatorCalls + j,
              agentCalls := st.agentCalls + j } := by
  intro j
  induction j with
  | zero =>
    intro a m csc prev st _ _ _ _ _ _
    simp [rejectedPairs_zero]
  | succ j ih =>
    intro a m csc prev st hjm htrig hval hrej hguard hagent
    rw [ih a m csc prev st (by omega)
      (fun i hi => htrig i (by omega)) (fun i hi => hval i (by omega))
      (fun i hi => hrej i (by omega)) (fun i hi => hguard i (by omega))
      (fun i hi => hagent i (by omega))]
    obtain ⟨f, hfj, htrigj⟩ := htrig j (by omega)
    rw [show m - j = (m - (j + 1)) + 1 from by omega, List.range'_succ]
    rw [vrsLoop_reject_retry_step env cfg sysP conv task vc maxA parent depth recurse
      (a + j) (List.range' (a + j + 1) (m - (j + 1))) (props j) (csc + j) _ _ f (rejs j)
      (props (j + 1)) hfj htrigj (hval j (by omega) _)
      (hrej j (by omega)) (hguard j (by omega)) (hagent j (by omega) _)]
    simp only [rejectedPairs_succ, List.append_assoc]
    rfl

end Erc3

namespace Erc3

theorem vrs_entry (env : LoopEnv) (cfg : AgentConfig)
    (registry : List ValidatorConfig) (sysP : String) (conv : List Message)
    (task : String) (fuel : Nat) (llm : LLMResult) (parent : String)
    (sc depth : Nat) (st : RunState) (f : Func) (vc : ValidatorConfig)
    (hf : llm.parsed.function = some f)
    (hfind : find_validator registry cfg.name f = some vc) :
    validate_and_retry_step env cfg registry sysP conv task fuel llm parent sc depth st =
      vrsLoop env cfg sysP conv task vc (vc.max_attempts.getD 1) parent depth
        (vrsRecurse env cfg registry sysP conv task fuel parent depth)
        (List.range (vc.max_attempts.getD 1 + 1)) llm sc none st := by
  have hbody : validate_and_retry_step env cfg registry sysP conv task fuel llm
      parent sc depth st =
    vrsEntryBody env cfg registry sysP conv task
      (vrsRecurse env cfg registry sysP conv task fuel parent depth)
      llm parent sc depth st := by
    cases fuel <;> rfl
  rw [hbody]
  unfold vrsEntryBody
  simp only [hf, hfind]

theorem vrs_reject_then_approve (env : LoopEnv) (cfg : AgentConfig)
    (registry : List ValidatorConfig) (sysP : String) (conv : List Message)
    (task : String) (vc : ValidatorConfig) (props : Nat → LLMResult)
    (rejs : Nat → ValidatorLLMResult) (app : ValidatorLLMResult)
    (parent : String) (sc depth fuel : Nat) (st : RunState) (k M : Nat) (f0 : Func)
    (hM : vc.max_attempts.getD 1 = M) (hk : k ≤ M)
    (hf0 : (props 0).parsed.function = some f0)
    (hfind : find_validator registry cfg.name f0 = some vc)
    (htrig : ∀ i, i ≤ k → ∃ f, (props i).parsed.function = some f ∧
      vc.triggers_on_tools f = true)
    (hval : ∀ i, i < k → ∀ msgs, env.validatorLLM (st.validatorCalls + i) msgs =
      .ok (rejs i))
    (hrej : ∀ i, i < k → (rejs i).parsed.is_valid = false)
    (hvapp : ∀ msgs, env.validatorLLM (st.validatorCalls + k) msgs = .ok app)
    (happ : app.parsed.is_valid = true)
    (hagent : ∀ i, i < k → ∀ msgs, env.agentLLM (st.agentCalls + i) msgs =
      .ok (props (i + 1))) :
    validate_and_retry_step env cfg registry sysP conv task fuel (props 0)
        parent sc depth st =
      (.ok ⟨props k, sc + k + 1, next_node_id (some parent) (sc + k)⟩,
       { st with
          trace := st.trace ++
            rejectedPairs env cfg sysP conv vc parent sc props rejs k ++
            [attemptValidatorEvent env sysP conv vc parent (sc + k) (props k) app],
          validatorCalls := st.validatorCalls + (k + 1),
          agentCalls := st.agentCalls + k }) := by
  rw [vrs_entry env cfg registry sysP conv task fuel (props 0) parent sc depth st f0 vc
    hf0 hfind, hM, List.range_eq_range']
  rw [vrsLoop_reject_run env cfg sysP conv task vc M parent depth
    (vrsRecurse env cfg registry sysP conv task fuel parent depth) props rejs
    k 0 (M + 1) sc none st (by omega) (fun i hi => htrig i (by omega)) hval hrej
    (fun i hi => by omega) hagent]
  obtain ⟨fk, hfk, htrigk⟩ := htrig k (Nat.le_refl k)
  rw [show M + 1 - k = (M - k) + 1 from by omega, List.range'_succ]
  rw [vrsLoop_approve_step env cfg sysP conv task vc M parent depth
    (vrsRecurse env cfg registry sysP conv task fuel parent depth)
    (0 + k) (List.range' (0 + k + 1) (M - k)) (props k) (sc + k) _ _ fk app
    hfk htrigk (hvapp _) happ]
  simp only [List.append_assoc]
  rfl

theorem vrs_force_approval (env : LoopEnv) (cfg : AgentConfig)
    (registry : List ValidatorConfig) (sysP : String) (conv : List Message)
    (task : String) (vc : ValidatorConfig) (props : Nat → LLMResult)
    (rejs : Nat → ValidatorLLMResult) (parent : String) (sc depth fuel : Nat)
    (st : RunState) (M : Nat) (f0 : Func)
    (hM : vc.max_attempts.getD 1 = M)
    (hf0 : (props 0).parsed.function = some f0)
    (hfind : find_validator registry cfg.name f0 = some vc)
    (htrig : ∀ i, i ≤ M → ∃ f, (props i).parsed.function = some f ∧
      vc.triggers_on_tools f = true)
    (hval : ∀ i, i ≤ M → ∀ msgs, env.validatorLLM (st.validatorCalls + i) msgs =
      .ok (rejs i))
    (hrej : ∀ i, i ≤ M → (rejs i).parsed.is_valid = false)
    (hagent : ∀ i, i < M → ∀ msgs, env.agentLLM (st.agentCalls + i) msgs =
      .ok (props (i + 1))) :
    validate_and_retry_step env cfg registry sysP conv task fuel (props 0)
        parent sc depth st =
      (.ok ⟨props M, sc + M + 1, next_node_id (some parent) (sc + M)⟩,
       { st with
          trace := st.trace ++
            rejectedPairs env cfg sysP conv vc parent sc props rejs (M + 1),
          validatorCalls := st.validatorCalls + (M + 1),
          agentCalls := st.agentCalls + M }) := by
  rw [vrs_entry env cfg registry sysP conv task fuel (props 0) parent sc depth st f0 vc
    hf0 hfind, hM, List.range_eq_range']
  rw [vrsLoop_reject_run env cfg sysP conv task vc M parent depth
    (vrsRecurse env cfg registry sysP conv task fuel parent depth) props rejs
    M 0 (M + 1) sc none st (by omega) (fun i hi => htrig i (by omega))
    (fun i hi => hval i (by omega)) (fun i hi => hrej i (by omega))
    (fun i hi => by omega) hagent]
  obtain ⟨fM, hfM, htrigM⟩ := htrig M (Nat.le_refl M)
  rw [show M + 1 - M = 0 + 1 from by omega, List.range'_succ]
  rw [vrsLoop_reject_last_step env cfg sysP conv task vc M parent depth
    (vrsRecurse env cfg registry sysP conv task fuel parent depth)
    (0 + M) (List.range' (0 + M + 1) 0) (props M) (sc + M) _ _ fM (rejs M)
    hfM htrigM (hval M (Nat.le_refl M) _) (hrej M (Nat.le_refl M))
    (by omega)]
  rw [show (List.range' (0 + M + 1) 0 : List Nat) = [] from rfl]
  rw [vrsLoop_nil]
  simp only [rejectedPairs_succ, List.append_assoc, Option.getD_some]
  rfl

end Erc3

namespace Erc3

/-! ### Preservation through validation (used by the step-limit theorem) -/

theorem vrsLoop_switch_guard_step (env : LoopEnv) (cfg : AgentConfig)
    (sysP : String) (conv : List Message) (task : String) (vc : ValidatorConfig)
    (maxA : Nat) (parent : String) (depth : Nat)
    (recurse : LLMResult → Nat → RunState → Except String VRSOut × RunState)
    (attempt : Nat) (rest : List Nat) (current : LLMResult) (csc : Nat)
    (prev : Option String) (st : RunState)
    (hmatch : (match current.parsed.function with
      | some f => vc.triggers_on_tools f
      | none => false) = false)
    (hd : depth ≥ 3) :
    vrsLoop env cfg sysP conv task vc maxA parent depth recurse
        (attempt :: rest) current csc prev st =
      (.ok ⟨current, csc, next_node_id (some parent) csc⟩, st) := by
  conv_lhs => unfold vrsLoop
  simp only [hmatch, Bool.false_eq_true, if_false, hd, if_true]

theorem vrsLoop_switch_recurse_step (env : LoopEnv) (cfg : AgentConfig)
    (sysP : String) (conv : List Message) (task : String) (vc : ValidatorConfig)
    (maxA : Nat) (parent : String) (depth : Nat)
    (recurse : LLMResult → Nat → RunState → Except String VRSOut × RunState)
    (attempt : Nat) (rest : List Nat) (current : LLMResult) (csc : Nat)
    (prev : Option String) (st : RunState)
    (hmatch : (match current.parsed.function with
      | some f => vc.triggers_on_tools f
      | none => false) = false)
    (hd : ¬ depth ≥ 3) :
    vrsLoop env cfg sysP conv task vc maxA parent depth recurse
        (attempt :: rest) current csc prev st =
      recurse current csc st := by
  conv_lhs => unfold vrsLoop
  simp only [hmatch, Bool.false_eq_true, if_false, hd]

theorem vrsLoop_preserves (env : LoopEnv) (cfg : AgentConfig) (sysP : String)
    (conv : List Message) (task : String) (vc : ValidatorConfig) (maxA : Nat)
    (parent : String) (depth : Nat)
    (recurse : LLMResult → Nat → RunState → Except String VRSOut × RunState)
    (P : LLMResult → Prop)
    (hagent : ∀ n msgs, ∃ res, env.agentLLM n msgs = .ok res ∧ P res)
    (hrec : ∀ cur csc st0, P cur → ∃ v st1,
      recurse cur csc st0 = (.ok v, st1) ∧ P v.llm_result ∧
      st1.iterations = st0.iterations ∧ st1.toolExecs = st0.toolExecs) :
    ∀ (attempts : List Nat) (current : LLMResult) (csc : Nat)
      (prev : Option String) (st : RunState), P current →
      ∃ v st1, vrsLoop env cfg sysP conv task vc maxA parent depth recurse
          attempts current csc prev st = (.ok v, st1) ∧ P v.llm_result ∧
        st1.iterations = st.iterations ∧ st1.toolExecs = st.toolExecs := by
  intro attempts
  induction attempts with
  | nil =>
    intro current csc prev st hP
    exact ⟨⟨current, csc, prev.getD "0"⟩, st,
      vrsLoop_nil env cfg sysP conv task vc maxA parent depth recurse
        current csc prev st, hP, rfl, rfl⟩
  | cons attempt rest ih =>
    intro current csc prev st hP
    by_cases hmatch : (match current.parsed.function with
      | some f => vc.triggers_on_tools f
      | none => false) = true
    · rcases hfn : current.parsed.function with _ | f
      · rw [hfn] at hmatch
        simp at hmatch
      · rw [hfn] at hmatch
        rcases hvo : env.validatorLLM st.validatorCalls
          [⟨"user", validatorUserMessage env sysP conv current.output⟩] with r | ⟨exc, elapsed⟩
        · by_cases hvalid : r.parsed.is_valid = true
          · rw [vrsLoop_approve_step env cfg sysP conv task vc maxA parent depth
              recurse attempt rest current csc prev st f r hfn hmatch hvo hvalid]
            exact ⟨_, _, rfl, hP, rfl, rfl⟩
          · have hrej : r.parsed.is_valid = false := by
              simpa using hvalid
            by_cases hg : attempt < maxA
            · obtain ⟨res, hres, hPres⟩ := hagent st.agentCalls (conv ++
                [⟨"assistant", "Planned step:\n\"" ++ current.output.next_action ++
                    "\"\n\nPlan rejected by validator."⟩,
                 ⟨"user", "Your plan was rejected: " ++ r.parsed.rejection_message ++
                    "\n\nPlease revise your approach."⟩])
              rw [vrsLoop_reject_retry_step env cfg sysP conv task vc maxA parent
                depth recurse attempt rest current csc prev st f r res hfn hmatch
                hvo hrej hg hres]
              obtain ⟨v, st1, heq, hPv, hit, hte⟩ := ih res (csc + 1)
                (some (next_node_id (some parent) csc)) _ hPres
              exact ⟨v, st1, heq, hPv, hit, hte⟩
            · rw [vrsLoop_reject_last_step env cfg sysP conv task vc maxA parent
                depth recurse attempt rest current csc prev st f r hfn hmatch
                hvo hrej hg]
              obtain ⟨v, st1, heq, hPv, hit, hte⟩ := ih current (csc + 1)
                (some (next_node_id (some parent) csc)) _ hP
              exact ⟨v, st1, heq, hPv, hit, hte⟩
        · rw [vrsLoop_validator_error_step env cfg sysP conv task vc maxA parent
            depth recurse attempt rest current csc prev st f exc elapsed hfn
            hmatch hvo]
          exact ⟨_, _, rfl, hP, rfl, rfl⟩
    · have hmatch' : (match current.parsed.function with
        | some f => vc.triggers_on_tools f
        | none => false) = false := by
        simpa using hmatch
      by_cases hd : depth ≥ 3
      · rw [vrsLoop_switch_guard_step env cfg sysP conv task vc maxA parent depth
          recurse attempt rest current csc prev st hmatch' hd]
        exact ⟨_, _, rfl, hP, rfl, rfl⟩
      · rw [vrsLoop_switch_recurse_step env cfg sysP conv task vc maxA parent depth
          recurse attempt rest current csc prev st hmatch' hd]
        exact hrec current csc st hP

theorem vrsEntryBody_preserves (env : LoopEnv) (cfg : AgentConfig)
    (registry : List ValidatorConfig) (sysP : String) (conv : List Message)
    (task : String)
    (recurse : LLMResult → Nat → RunState → Except String VRSOut × RunState)
    (P : LLMResult → Prop)
    (hagent : ∀ n msgs, ∃ res, env.agentLLM n msgs = .ok res ∧ P res)
    (hrec : ∀ cur csc st0, P cur → ∃ v st1,
      recurse cur csc st0 = (.ok v, st1) ∧ P v.llm_result ∧
      st1.iterations = st0.iterations ∧ st1.toolExecs = st0.toolExecs)
    (llm : LLMResult) (parent : String) (sc depth : Nat) (st : RunState)
    (hP : P llm) :
    ∃ v st1, vrsEntryBody env cfg registry sysP conv task recurse llm parent
        sc depth st = (.ok v, st1) ∧ P v.llm_result ∧
      st1.iterations = st.iterations ∧ st1.toolExecs = st.toolExecs := by
  unfold vrsEntryBody
  rcases hfn : llm.parsed.function with _ | f
  · exact ⟨⟨llm, sc + 1, next_node_id (some parent) sc⟩, st, rfl, hP, rfl, rfl⟩
  · dsimp only
    rcases hfind : find_validator registry cfg.name f with _ | vc
    · exact ⟨⟨llm, sc + 1, next_node_id (some parent) sc⟩, st, rfl, hP, rfl, rfl⟩
    · exact vrsLoop_preserves env cfg sysP conv task vc
        (vc.max_attempts.getD 1) parent depth recurse P hagent hrec
        (List.range (vc.max_attempts.getD 1 + 1)) llm sc none st hP

theorem vrs_preserves (env : LoopEnv) (cfg : AgentConfig)
    (registry : List ValidatorConfig) (sysP : String) (conv' : List Message)
    (task : String) (P : LLMResult → Prop)
    (hagent : ∀ n msgs, ∃ res, env.agentLLM n msgs = .ok res ∧ P res) :
    ∀ (fuel : Nat) (llm : LLMResult) (parent : String) (sc depth : Nat)
      (st : RunState), P llm →
      ∃ v st1, validate_and_retry_step env cfg registry sysP conv' task fuel llm
          parent sc depth st = (.ok v, st1) ∧ P v.llm_result ∧
        st1.iterations = st.iterations ∧ st1.toolExecs = st.toolExecs := by
  intro fuel
  induction fuel with
  | zero =>
    intro llm parent sc depth st hP
    exact vrsEntryBody_preserves env cfg registry sysP conv' task _ P hagent
      (fun cur csc st0 hc => ⟨⟨cur, csc, next_node_id (some parent) csc⟩, st0,
        rfl, hc, rfl, rfl⟩) llm parent sc depth st hP
  | succ f ih =>
    intro llm parent sc depth st hP
    exact vrsEntryBody_preserves env cfg registry sysP conv' task _ P hagent
      (fun cur csc st0 hc => ih cur parent csc (depth + 1) st0 hc)
      llm parent sc depth st hP

end Erc3

namespace Erc3

theorem ralGo_zero (env : LoopEnv) (cfg : AgentConfig)
    (registry : List ValidatorConfig) (parent ctx : String)
    (conversation : List Message) (sc : Nat) (st : RunState) :
    ralGo env cfg registry parent ctx 0 conversation sc st =
      (.error (.stepLimit ("Agent " ++ cfg.name ++ " exceeded " ++
        toString cfg.max_steps ++ " steps without completing.")), st) := rfl

theorem ralGo_no_terminal (env : LoopEnv) (cfg : AgentConfig)
    (registry : List ValidatorConfig) (parent ctx : String)
    (hagent : ∀ n msgs, ∃ res, env.agentLLM n msgs = .ok res ∧
      ∃ f, res.parsed.function = some f ∧ f.terminal = false) :
    ∀ (remaining : Nat) (conversation : List Message) (sc : Nat) (st : RunState),
      ∃ st1, ralGo env cfg registry parent ctx remaining conversation sc st =
        (.error (.stepLimit ("Agent " ++ cfg.name ++ " exceeded " ++
          toString cfg.max_steps ++ " steps without completing.")), st1) ∧
        st1.iterations = st.iterations + remaining := by
  intro remaining
  induction remaining with
  | zero =>
    intro conversation sc st
    exact ⟨st, ralGo_zero env cfg registry parent ctx conversation sc st, rfl⟩
  | succ rem ih =>
    intro conversation sc st
    obtain ⟨p0, hp0, hP0⟩ := hagent st.agentCalls conversation
    obtain ⟨v, st2, hvrs, hPv, hit, hte⟩ := vrs_preserves env cfg registry
      cfg.system_prompt conversation ctx
      (fun res => ∃ f, res.parsed.function = some f ∧ f.terminal = false)
      hagent 4 p0 parent sc 0
      { st with iterations := st.iterations + 1, agentCalls := st.agentCalls + 1 }
      hP0
    obtain ⟨f, hf, hterm⟩ := hPv
    have hstep : ralGo env cfg registry parent ctx (rem + 1) conversation sc st =
        ralGo env cfg registry parent ctx rem
          (inject_plan conversation v.llm_result.parsed.remaining_work ++
            [⟨"assistant", "Step completed.\nAction: " ++
              v.llm_result.parsed.next_action ++ "\nTool called: " ++
              env.dumpFunc f ++ "\nResponse received: " ++
              (env.tools st2.toolExecs v.llm_result.parsed).text⟩])
          v.step_count
          { st2 with
              toolExecs := st2.toolExecs + 1
              trace := st2.trace ++ [create_trace_event v.node_id (some parent)
                (v.step_count - 1) cfg.name cfg.system_prompt conversation
                (.agent v.llm_result.output) v.llm_result.reasoning
                v.llm_result.timing "agent_step"
                (some (env.tools st2.toolExecs v.llm_result.parsed).tool_calls)] } := by
      conv_lhs => unfold ralGo
      dsimp only
      rw [hp0]
      dsimp only
      rw [hvrs]
      dsimp only
      rw [hf]
      dsimp only
      rw [hterm]
      simp only [Bool.false_eq_true, if_false]
    rw [hstep]
    obtain ⟨st1, hfinal, hiter⟩ := ih _ _ _
    refine ⟨st1, hfinal, ?_⟩
    have h1 : st1.iterations = st2.iterations + rem := hiter
    have h2 : st2.iterations = st.iterations + 1 := hit
    omega

/-- C2: with `max_steps = N`, if every LLM proposal carries a non-terminal
function (so no iteration produces a terminal action), `run_agent_loop`
raises `AgentStepLimitError` — with its exact message — after exactly `N`
executed decide/execute iterations, not before and not after; the error is
the loop's own result (the loop installs no handler), so it propagates to the
caller. -/
theorem runAgentLoop_step_limit (env : LoopEnv) (cfg : AgentConfig)
    (registry : List ValidatorConfig) (ctx parent : String) (st : RunState)
    (hagent : ∀ n msgs, ∃ res, env.agentLLM n msgs = .ok res ∧
      ∃ f, res.parsed.function = some f ∧ f.terminal = false) :
    ∃ st1, run_agent_loop env cfg registry ctx parent st =
      (.error (.stepLimit ("Agent " ++ cfg.name ++ " exceeded " ++
        toString cfg.max_steps ++ " steps without completing.")), st1) ∧
      st1.iterations = st.iterations + cfg.max_steps := by
  unfold run_agent_loop
  exact ralGo_no_terminal env cfg registry parent ctx hagent cfg.max_steps
    [⟨"user", ctx⟩] 0 st

end Erc3

namespace Erc3

/-- C2 witness: a 2-step agent whose proposals are never terminal raises the
step-limit error after exactly 2 iterations. -/
theorem runAgentLoop_step_limit_witness :
    ∃ st1, run_agent_loop exEnvNT exCfg2 [exVC] "task" "0" st0 =
      (.error (.stepLimit ("Agent " ++ exCfg2.name ++ " exceeded " ++
        toString exCfg2.max_steps ++ " steps without completing.")), st1) ∧
      st1.iterations = st0.iterations + exCfg2.max_steps :=
  runAgentLoop_step_limit exEnvNT exCfg2 [exVC] "task" "0" st0
    (fun _ _ => ⟨exLLMNT, rfl, exFuncNT, rfl, rfl⟩)

theorem ralGo_iteration_terminal (env : LoopEnv) (cfg : AgentConfig)
    (registry : List ValidatorConfig) (parent ctx : String) (rem : Nat)
    (conversation : List Message) (sc : Nat) (st : RunState)
    (p0 : LLMResult) (v : VRSOut) (st2 : RunState) (f : Func)
    (hp0 : env.agentLLM st.agentCalls conversation = .ok p0)
    (hvrs : validate_and_retry_step env cfg registry cfg.system_prompt
      conversation ctx 4 p0 parent sc 0
      { st with iterations := st.iterations + 1, agentCalls := st.agentCalls + 1 } =
      (.ok v, st2))
    (hf : v.llm_result.parsed.function = some f)
    (hterm : f.terminal = true) :
    ralGo env cfg registry parent ctx (rem + 1) conversation sc st =
      (.ok ⟨(if f.outcome = "ok_answer" ∨ f.outcome = "ok_not_found"
              then "completed" else "refused"),
            f.outcome, f.message, f.links,
            inject_plan conversation v.llm_result.parsed.remaining_work ++
              [⟨"assistant", "Step completed.\nAction: " ++
                v.llm_result.parsed.next_action ++ "\nTool called: " ++
                env.dumpFunc f ++ "\nResponse received: " ++
                (env.tools st2.toolExecs v.llm_result.parsed).text⟩]⟩,
       { st2 with
           toolExecs := st2.toolExecs + 1
           trace := st2.trace ++ [executedAgentEvent env cfg conversation parent
             v.node_id (v.step_count - 1) v.llm_result st2.toolExecs] }) := by
  conv_lhs => unfold ralGo
  dsimp only
  rw [hp0]
  dsimp only
  rw [hvrs]
  dsimp only
  rw [hf]
  dsimp only
  rw [hterm]
  simp only [if_true, executedAgentEvent]

end Erc3

namespace Erc3

/-! ### Claim theorems: trace ordering and node ids -/

/-- C1 counterexample: in the concrete run whose single decision the
validator approves immediately, the resulting trace is
`[validator_step "1.1" (validating "1"), agent_step "1"]` — the validator
event at index 0 is not immediately preceded by the agent_step it validates
(nothing precedes it), so the claim as stated is false. -/
theorem traceOrdering_counterexample :
    ¬ (∀ i, (h : i < exRunApprove.2.trace.length) →
        (exRunApprove.2.trace.get ⟨i, h⟩).event = "validator_step" →
        ∃ hp : i - 1 < exRunApprove.2.trace.length, 1 ≤ i ∧
          (exRunApprove.2.trace.get ⟨i - 1, hp⟩).event = "agent_step" ∧
          some (exRunApprove.2.trace.get ⟨i - 1, hp⟩).node_id =
            (exRunApprove.2.trace.get ⟨i, h⟩).validates_node_id) := by
  intro hcl
  have h0 : (0 : Nat) < exRunApprove.2.trace.length := by
    rw [show exRunApprove.2.trace.length = 2 from rfl]
    omega
  obtain ⟨hp, h1, _, _⟩ := hcl 0 h0 rfl
  omega

/-- C1 (amended): for a validation sequence of `k` rejected attempts followed
by one approved attempt within a loop iteration that executes a terminal
decision, the trace gains, in list order: the `k` rejected attempts, each
logged as an agent_step immediately followed by the validator_step that
rejected it; then the approving validator_step; then — immediately after it —
the agent_step of the executed approved decision.  The approving
validator_step immediately precedes (not follows) the agent_step it
validates, because reordering only happens on rejection. -/
theorem traceOrdering_validation_sequence (env : LoopEnv) (cfg : AgentConfig)
    (registry : List ValidatorConfig) (parent ctx : String) (rem : Nat)
    (conversation : List Message) (sc : Nat) (st : RunState)
    (vc : ValidatorConfig) (props : Nat → LLMResult)
    (rejs : Nat → ValidatorLLMResult) (app : ValidatorLLMResult)
    (k M : Nat) (f0 fk : Func)
    (hp0 : env.agentLLM st.agentCalls conversation = .ok (props 0))
    (hM : vc.max_attempts.getD 1 = M) (hk : k ≤ M)
    (hf0 : (props 0).parsed.function = some f0)
    (hfind : find_validator registry cfg.name f0 = some vc)
    (htrig : ∀ i, i ≤ k → ∃ f, (props i).parsed.function = some f ∧
      vc.triggers_on_tools f = true)
    (hval : ∀ i, i < k → ∀ msgs,
      env.validatorLLM (st.validatorCalls + i) msgs = .ok (rejs i))
    (hrej : ∀ i, i < k → (rejs i).parsed.is_valid = false)
    (hvapp : ∀ msgs, env.validatorLLM (st.validatorCalls + k) msgs = .ok app)
    (happ : app.parsed.is_valid = true)
    (hagent : ∀ i, i < k → ∀ msgs,
      env.agentLLM (st.agentCalls + 1 + i) msgs = .ok (props (i + 1)))
    (hfk : (props k).parsed.function = some fk)
    (hterm : fk.terminal = true) :
    ∃ res stF, ralGo env cfg registry parent ctx (rem + 1) conversation sc st =
      (.ok res, stF) ∧
      stF.trace = st.trace ++
        rejectedPairs env cfg cfg.system_prompt conversation vc parent sc props rejs k ++
        [attemptValidatorEvent env cfg.system_prompt conversation vc parent
           (sc + k) (props k) app,
         executedAgentEvent env cfg conversation parent
           (next_node_id (some parent) (sc + k)) (sc + k) (props k) st.toolExecs] := by
  have hvrs := vrs_reject_then_approve env cfg registry cfg.system_prompt
    conversation ctx vc props rejs app parent sc 0 4
    { st with iterations := st.iterations + 1, agentCalls := st.agentCalls + 1 }
    k M f0 hM hk hf0 hfind htrig hval hrej hvapp happ hagent
  have hral := ralGo_iteration_terminal env cfg registry parent ctx rem
    conversation sc st (props 0)
    ⟨props k, sc + k + 1, next_node_id (some parent) (sc + k)⟩ _ fk hp0 hvrs hfk hterm
  refine ⟨_, _, hral, ?_⟩
  simp [List.append_assoc]

/-- C8 counterexample: in the concrete run where every validation attempt is
rejected (max_attempts = 1), the trace's node ids are
`["1", "1.1", "2", "2.1", "2"]`; the agent_step logged for the force-approved
executed decision reuses the node id `"2"` of the final rejected attempt's
agent_step, so node ids are not unique. -/
theorem nodeId_unique_counterexample :
    ¬ (exRunReject.2.trace.map (fun e => e.node_id)).Nodup := by
  intro h
  rw [show exRunReject.2.trace.map (fun e => e.node_id) =
    ["1", "1.1", "2", "2.1", "2"] from rfl] at h
  exact absurd h (by decide)

/-- C8 (amended): ids under a given parent are assigned monotonically (the
agent_step of the `j`-th attempt carries sibling index `sc + j` and node id
`next_node_id parent (sc + j)`), but on a force-approved (retries-exhausted)
step the post-execution agent_step reuses exactly the node id of the final
rejected attempt's agent_step event — two agent_step events with the same
node id appear in the trace. -/
theorem nodeId_forceApproval_sequence (env : LoopEnv) (cfg : AgentConfig)
    (registry : List ValidatorConfig) (parent ctx : String) (rem : Nat)
    (conversation : List Message) (sc : Nat) (st : RunState)
    (vc : ValidatorConfig) (props : Nat → LLMResult)
    (rejs : Nat → ValidatorLLMResult) (M : Nat) (f0 fM : Func)
    (hp0 : env.agentLLM st.agentCalls conversation = .ok (props 0))
    (hM : vc.max_attempts.getD 1 = M)
    (hf0 : (props 0).parsed.function = some f0)
    (hfind : find_validator registry cfg.name f0 = some vc)
    (htrig : ∀ i, i ≤ M → ∃ f, (props i).parsed.function = some f ∧
      vc.triggers_on_tools f = true)
    (hval : ∀ i, i ≤ M → ∀ msgs,
      env.validatorLLM (st.validatorCalls + i) msgs = .ok (rejs i))
    (hrej : ∀ i, i ≤ M → (rejs i).parsed.is_valid = false)
    (hagent : ∀ i, i < M → ∀ msgs,
      env.agentLLM (st.agentCalls + 1 + i) msgs = .ok (props (i + 1)))
    (hfM : (props M).parsed.function = some fM)
    (hterm : fM.terminal = true) :
    ∃ res stF, ralGo env cfg registry parent ctx (rem + 1) conversation sc st =
      (.ok res, stF) ∧
      stF.trace = st.trace ++
        rejectedPairs env cfg cfg.system_prompt conversation vc parent sc props
          rejs (M + 1) ++
        [executedAgentEvent env cfg conversation parent
          (next_node_id (some parent) (sc + M)) (sc + M) (props M) st.toolExecs] ∧
      (executedAgentEvent env cfg conversation parent
          (next_node_id (some parent) (sc + M)) (sc + M) (props M)
          st.toolExecs).node_id =
        (rejectedAgentEvent cfg cfg.system_prompt conversation parent (sc + M)
          (props M)).node_id := by
  have hvrs := vrs_force_approval env cfg registry cfg.system_prompt
    conversation ctx vc props rejs parent sc 0 4
    { st with iterations := st.iterations + 1, agentCalls := st.agentCalls + 1 }
    M f0 hM hf0 hfind htrig hval hrej hagent
  have hral := ralGo_iteration_terminal env cfg registry parent ctx rem
    conversation sc st (props 0)
    ⟨props M, sc + M + 1, next_node_id (some parent) (sc + M)⟩ _ fM hp0 hvrs hfM hterm
  refine ⟨_, _, hral, ?_, rfl⟩
  simp [List.append_assoc]

end Erc3

namespace Erc3

/-- C1 witness (k = 0): immediate approval of a terminal decision. -/
theorem traceOrdering_validation_sequence_witness :
    ∃ res stF, ralGo exEnvApprove exCfg [exVC] "0" "task" (39 + 1)
        [⟨"user", "task"⟩] 0 st0 = (.ok res, stF) ∧
      stF.trace = st0.trace ++
        rejectedPairs exEnvApprove exCfg exCfg.system_prompt [⟨"user", "task"⟩]
          exVC "0" 0 (fun _ => exLLMResult) (fun _ => exReject) 0 ++
        [attemptValidatorEvent exEnvApprove exCfg.system_prompt
           [⟨"user", "task"⟩] exVC "0" (0 + 0) exLLMResult exApprove,
         executedAgentEvent exEnvApprove exCfg [⟨"user", "task"⟩] "0"
           (next_node_id (some "0") (0 + 0)) (0 + 0) exLLMResult st0.toolExecs] :=
  traceOrdering_validation_sequence exEnvApprove exCfg [exVC] "0" "task" 39
    [⟨"user", "task"⟩] 0 st0 exVC (fun _ => exLLMResult) (fun _ => exReject)
    exApprove 0 1 exFunc exFunc rfl rfl (by omega) rfl rfl
    (fun i _ => ⟨exFunc, rfl, rfl⟩) (fun i hi => absurd hi (by omega))
    (fun i hi => absurd hi (by omega)) (fun _ => rfl) rfl
    (fun i hi => absurd hi (by omega)) rfl rfl

/-- C8 witness (M = 1): both validation attempts rejected, terminal decision
force-approved and executed. -/
theorem nodeId_forceApproval_sequence_witness :
    ∃ res stF, ralGo exEnvReject exCfg [exVC] "0" "task" (39 + 1)
        [⟨"user", "task"⟩] 0 st0 = (.ok res, stF) ∧
      stF.trace = st0.trace ++
        rejectedPairs exEnvReject exCfg exCfg.system_prompt [⟨"user", "task"⟩]
          exVC "0" 0 (fun _ => exLLMResult) (fun _ => exReject) (1 + 1) ++
        [executedAgentEvent exEnvReject exCfg [⟨"user", "task"⟩] "0"
          (next_node_id (some "0") (0 + 1)) (0 + 1) exLLMResult st0.toolExecs] ∧
      (executedAgentEvent exEnvReject exCfg [⟨"user", "task"⟩] "0"
          (next_node_id (some "0") (0 + 1)) (0 + 1) exLLMResult
          st0.toolExecs).node_id =
        (rejectedAgentEvent exCfg exCfg.system_prompt [⟨"user", "task"⟩] "0"
          (0 + 1) exLLMResult).node_id :=
  nodeId_forceApproval_sequence exEnvReject exCfg [exVC] "0" "task" 39
    [⟨"user", "task"⟩] 0 st0 exVC (fun _ => exLLMResult) (fun _ => exReject)
    1 exFunc exFunc rfl rfl rfl rfl (fun i _ => ⟨exFunc, rfl, rfl⟩)
    (fun i _ _ => rfl) (fun i _ => rfl) (fun i _ _ => rfl) rfl rfl

/-! ### Claim theorem: bounded force-approval (C3) -/

theorem rejectedPairs_validator_count (env : LoopEnv) (cfg : AgentConfig)
    (sysP : String) (conv : List Message) (vc : ValidatorConfig)
    (parent : String) (csc : Nat) (props : Nat → LLMResult)
    (rejs : Nat → ValidatorLLMResult) :
    ∀ k, (rejectedPairs env cfg sysP conv vc parent csc props rejs k).countP
      (fun e => e.event == "validator_step") = k := by
  intro k
  induction k with
  | zero => rfl
  | succ k ih =>
    rw [rejectedPairs_succ, List.countP_append, ih]
    simp [rejectedPair, rejectedAgentEvent, attemptValidatorEvent,
      create_trace_event, create_validator_event, List.countP_cons]

/-- C3: when the bound validator (configured `max_attempts = M`) rejects
every proposed decision, `validate_and_retry_step` terminates after logging
exactly `M + 1` validator_step events and returns the last LLM proposal
(`props M`) for execution — force-approval of the final proposal, never a
synthesized default. -/
theorem forceApproval_bounded (env : LoopEnv) (cfg : AgentConfig)
    (registry : List ValidatorConfig) (sysP : String) (conv : List Message)
    (task : String) (vc : ValidatorConfig) (props : Nat → LLMResult)
    (rejs : Nat → ValidatorLLMResult) (parent : String) (sc depth fuel : Nat)
    (st : RunState) (M : Nat) (f0 : Func)
    (hM : vc.max_attempts.getD 1 = M)
    (hf0 : (props 0).parsed.function = some f0)
    (hfind : find_validator registry cfg.name f0 = some vc)
    (htrig : ∀ i, i ≤ M → ∃ f, (props i).parsed.function = some f ∧
      vc.triggers_on_tools f = true)
    (hval : ∀ i, i ≤ M → ∀ msgs,
      env.validatorLLM (st.validatorCalls + i) msgs = .ok (rejs i))
    (hrej : ∀ i, i ≤ M → (rejs i).parsed.is_valid = false)
    (hagent : ∀ i, i < M → ∀ msgs,
      env.agentLLM (st.agentCalls + i) msgs = .ok (props (i + 1))) :
    validate_and_retry_step env cfg registry sysP conv task fuel (props 0)
        parent sc depth st =
      (.ok ⟨props M, sc + M + 1, next_node_id (some parent) (sc + M)⟩,
       { st with
          trace := st.trace ++
            rejectedPairs env cfg sysP conv vc parent sc props rejs (M + 1),
          validatorCalls := st.validatorCalls + (M + 1),
          agentCalls := st.agentCalls + M }) ∧
    (st.trace ++
        rejectedPairs env cfg sysP conv vc parent sc props rejs (M + 1)).countP
        (fun e => e.event == "validator_step") =
      st.trace.countP (fun e => e.event == "validator_step") + (M + 1) := by
  refine ⟨vrs_force_approval env cfg registry sysP conv task vc props rejs
    parent sc depth fuel st M f0 hM hf0 hfind htrig hval hrej hagent, ?_⟩
  rw [List.countP_append, rejectedPairs_validator_count]

/-- C3 witness: with `max_attempts = 1` and an always-rejecting validator,
the returned decision is the last proposal at node `"2"` after `step_count`
advanced by 2, and the trace gained exactly 2 validator_step events. -/
theorem forceApproval_bounded_witness :
    (validate_and_retry_step exEnvReject exCfg [exVC] "asys"
        [⟨"user", "task"⟩] "task" 4 exLLMResult "0" 0 0 st0).1 =
      .ok ⟨exLLMResult, 2, "2"⟩ := by
  have h := forceApproval_bounded exEnvReject exCfg [exVC] "asys"
    [⟨"user", "task"⟩] "task" exVC (fun _ => exLLMResult) (fun _ => exReject)
    "0" 0 0 4 st0 1 exFunc rfl rfl rfl (fun i _ => ⟨exFunc, rfl, rfl⟩)
    (fun i _ _ => rfl) (fun i _ => rfl) (fun i _ _ => rfl)
  rw [h.1]
  rfl

/-! ### Claim theorem: validator fail-open (C4) -/

/-- C4: when the validator's underlying LLM call raises, `run_step_validator`
returns an approved verdict (`is_valid = true`, empty rejection message) and
still appends exactly one validator_step event carrying the caught error as
its output, with `validation_passed = true`; likewise `run_bullshit_caller`
returns approved and appends exactly one (llm_call) trace event carrying the
error as output.  Neither raises to the agent loop. -/
theorem validator_fail_open (env : LoopEnv) (vc : ValidatorConfig)
    (task sysP : String) (conv : List Message) (out : Job)
    (vnid pnid : String) (sc : Nat) (st : RunState) (exc : String) (elapsed : ℚ)
    (llm : ValidatorCallOutcome) (bsSys bsTask : String) (bsLog : List Message)
    (ta : TerminalAction) (bsParent : String) (bsSib : Nat)
    (bsTrace : List TraceEvent) (e2 : String) (t2 : ℚ)
    (hfail : env.validatorLLM st.validatorCalls
      [⟨"user", validatorUserMessage env sysP conv out⟩] = .error exc elapsed)
    (hllm : llm = .error e2 t2) :
    ((run_step_validator env vc task sysP conv out vnid pnid sc st).1 =
        ⟨true, "", "Validation error: " ++ exc⟩ ∧
      ∃ ev, (run_step_validator env vc task sysP conv out vnid pnid sc st).2.trace =
          st.trace ++ [ev] ∧ ev.event = "validator_step" ∧
        ev.validation_passed = some true ∧ ev.output = .error exc) ∧
    ((run_bullshit_caller llm bsSys bsTask bsLog ta bsParent bsSib bsTrace).1 =
        ⟨true, "", "Validation error: " ++ e2⟩ ∧
      ∃ ev2, (run_bullshit_caller llm bsSys bsTask bsLog ta bsParent bsSib
          bsTrace).2 = bsTrace ++ [ev2] ∧ ev2.event = "llm_call" ∧
        ev2.output = .error e2) := by
  subst hllm
  rw [run_step_validator_err env vc task sysP conv out vnid pnid sc st exc
    elapsed hfail]
  refine ⟨⟨rfl, _, rfl, ?_, ?_, ?_⟩, rfl, _, rfl, ?_, ?_⟩ <;>
    simp [create_validator_event, create_llm_event, create_trace_event,
      run_bullshit_caller]

/-- C4 witness: an always-raising validator LLM approves with empty rejection
message, in both validators. -/
theorem validator_fail_open_witness :
    (run_step_validator exEnvErr exVC "t" "asys" [⟨"user", "task"⟩] exJob
        "1" "1" 0 st0).1 = ⟨true, "", "Validation error: boom"⟩ ∧
    (run_bullshit_caller (.error "boom" 1) "bsys" "t" [] ⟨true, "done"⟩
        "0" 0 []).1 = ⟨true, "", "Validation error: boom"⟩ := by
  have h := validator_fail_open exEnvErr exVC "t" "asys" [⟨"user", "task"⟩]
    exJob "1" "1" 0 st0 "boom" 1 (.error "boom" 1) "bsys" "t" []
    ⟨true, "done"⟩ "0" 0 [] "boom" 1 rfl rfl
  exact ⟨h.1.1, h.2.1⟩

end Erc3
